import Mathlib

/-!
Verification of the leetWars contest synchronization and scoring engine.

The definitions below are a shallow embedding of the server routes in
`server/routes/sync.js` and of the judge submission client in
`server/services/leetcodeService.js`.  Pure computations are translated
into Lean functions; the database documents become plain structures, and
the external fetches become oracles passed in as arguments.  Timestamps
follow the source: the submission feed and the contest window are handled
in epoch seconds, while the route-level cooldown and grace-period checks
are handled in epoch milliseconds.
-/

namespace LeetWars

/-- A record of the external judge submission feed, as consumed by the
sync routes: problem slug, epoch-second timestamp and verdict label. -/
structure Submission where
  titleSlug : String
  timestamp : Nat
  statusDisplay : String
deriving DecidableEq, Repr

/-- Status of one problem inside a participation (Participation model,
`problem_progress.status` enum). -/
inductive PStatus
  | PENDING
  | FAIL
  | ACCEPTED
deriving DecidableEq, Repr

/-- Per-problem progress record stored on a participation.  `solved_at`
stores the epoch-second timestamp of the accepted submission (the source
stores the corresponding Date object, which is determined by it). -/
structure ProblemProgress where
  slug : String
  status : PStatus
  fail_count : Nat
  solved_at : Option Nat
  penalty : Nat
deriving DecidableEq, Repr

/-- One problem of a contest, with the difficulty of its populated
catalog entry (absent when the catalog lookup fails). -/
structure ContestProblem where
  slug : String
  difficulty : Option String
deriving DecidableEq, Repr

/-- Participation state of a user in one contest.  `last_sync` is an
epoch-millisecond timestamp. -/
structure Participation where
  score : Nat
  total_penalty : Nat
  problem_progress : List ProblemProgress
  last_sync : Option Nat
  rank : Option Nat
deriving DecidableEq, Repr

/-- Contest fields read by the sync routes.  `start_time` and `end_time`
are epoch seconds; `last_bulk_sync` is epoch milliseconds. -/
structure Contest where
  problems : List ContestProblem
  start_time : Nat
  end_time : Nat
  finalized : Bool
  last_bulk_sync : Option Nat
deriving DecidableEq, Repr

/-- Difficulty-based point table of the single-participant route
(sync.js `getScoreForDifficulty`). -/
def getScoreForDifficulty (difficulty : String) : Nat :=
  if difficulty == "Easy" then 3
  else if difficulty == "Medium" then 4
  else if difficulty == "Hard" then 6
  else 1

/-- Window test of the submission filter: timestamp inside
`[start_time, end_time]` inclusive. -/
def inWindow (startT endT : Nat) (sub : Submission) : Bool :=
  decide (startT ≤ sub.timestamp) && decide (sub.timestamp ≤ endT)

/-- Ascending-timestamp order of the submission sort comparator. -/
def tsLE (a b : Submission) : Prop := a.timestamp ≤ b.timestamp

instance : DecidableRel tsLE := fun a b => Nat.decLe a.timestamp b.timestamp

instance : IsTotal Submission tsLE := ⟨fun a b => Nat.le_total a.timestamp b.timestamp⟩

instance : IsTrans Submission tsLE := ⟨fun _ _ _ h1 h2 => Nat.le_trans h1 h2⟩

/-- Filter the feed down to one problem's in-window submissions and sort
them ascending by timestamp (sync.js lines 104-113 and 384-388).  The JS
`Array.prototype.sort` is a stable sort, and the stable sort of a list
under a total preorder is unique, so the stable insertion sort is the
same function. -/
def problemSubmissionsFor (slug : String) (startT endT : Nat)
    (subs : List Submission) : List Submission :=
  (subs.filter fun sub => sub.titleSlug == slug && inWindow startT endT sub).insertionSort
    tsLE

/-- Scan of the sorted submissions (sync.js lines 116-126): count the
failed attempts and stop at the first accepted entry, returning the
fail count together with the accepted timestamp when one exists. -/
def scanSubmissions : List Submission → Nat × Option Nat
  | [] => (0, none)
  | sub :: rest =>
    if sub.statusDisplay == "Accepted" then (0, some sub.timestamp)
    else
      let r := scanSubmissions rest
      (r.1 + 1, r.2)

/-- Predicate used to locate a problem's progress entry by slug. -/
def slugMatch (slug : String) (p : ProblemProgress) : Bool :=
  p.slug == slug

/-- Replace the first progress entry carrying the given slug, mirroring
the JS pattern of `find` followed by in-place mutation. -/
def updateFirstSlug (slug : String) (f : ProblemProgress → ProblemProgress) :
    List ProblemProgress → List ProblemProgress
  | [] => []
  | p :: rest =>
    if p.slug == slug then f p :: rest
    else p :: updateFirstSlug slug f rest

/-- One iteration of the single-participant sync loop over the contest
problems (sync.js lines 84-154), returning the updated participation and
this problem's contribution to the `scoreChanged` flag.  The score gate
is embedded exactly as written: it inspects the progress list after the
entry has already been flipped to ACCEPTED. -/
def processProblemSingle (startT endT : Nat) (subs : List Submission)
    (participation : Participation) (problem : ContestProblem) :
    Participation × Bool :=
  match participation.problem_progress.find? (slugMatch problem.slug) with
  | none => (participation, false)
  | some problemProgress =>
    if problemProgress.status == PStatus.ACCEPTED then (participation, false)
    else
      let scan := scanSubmissions (problemSubmissionsFor problem.slug startT endT subs)
      match scan.2 with
      | some ts =>
        let failCount := scan.1
        let penalty := failCount * 5
        let newProgress := updateFirstSlug problem.slug
          (fun p => { p with
              status := PStatus.ACCEPTED,
              solved_at := some ts,
              fail_count := failCount,
              penalty := penalty })
          participation.problem_progress
        if participation.score == 0 ||
            ! newProgress.any (fun p => p.slug == problem.slug &&
                p.status == PStatus.ACCEPTED) then
          ({ participation with
              problem_progress := newProgress,
              score := participation.score +
                getScoreForDifficulty (problem.difficulty.getD "Medium"),
              total_penalty := participation.total_penalty + penalty }, true)
        else
          ({ participation with problem_progress := newProgress }, false)
      | none =>
        if scan.1 > 0 then
          let newProgress := updateFirstSlug problem.slug
            (fun p => { p with fail_count := scan.1, status := PStatus.FAIL })
            participation.problem_progress
          ({ participation with problem_progress := newProgress }, false)
        else (participation, false)

/-- The single-participant sync pass over all contest problems
(sync.js lines 72-154). -/
def syncPassSingle (contest : Contest) (participation : Participation)
    (subs : List Submission) : Participation × Bool :=
  contest.problems.foldl
    (fun acc problem =>
      let r := processProblemSingle contest.start_time contest.end_time subs
        acc.1 problem
      (r.1, acc.2 || r.2))
    (participation, false)

/-- Outcome of a single-participant sync request after the contest and
participation lookups. -/
inductive SingleSyncResult
  | refusedRateLimited (waitSeconds : Nat)
  | fetchFailed
  | synced (scoreChanged : Bool) (message : String)
deriving DecidableEq, Repr

/-- Body of the single-participant route once the cooldown has passed:
fetch, run the pass, stamp `last_sync` and build the response message
(sync.js lines 54-193). -/
def syncSingleProceed (contest : Contest) (participation : Participation)
    (fetch : Except Unit (List Submission)) (nowMs : Nat) :
    Participation × SingleSyncResult :=
  match fetch with
  | Except.error _ => (participation, SingleSyncResult.fetchFailed)
  | Except.ok subs =>
    let r := syncPassSingle contest participation subs
    ({ r.1 with last_sync := some nowMs },
      SingleSyncResult.synced r.2
        (if r.2 then "Score updated successfully!" else "No new submissions found"))

/-- POST /api/sync/:contestId after the contest and participation lookups
(sync.js lines 44-193).  The only precondition is the 30 second
cooldown; `contest.finalized`, `start_time` and `end_time` are never
consulted for gating. -/
def syncSingleRequest (contest : Contest) (participation : Participation)
    (fetch : Except Unit (List Submission)) (nowMs : Nat) :
    Participation × SingleSyncResult :=
  match participation.last_sync with
  | some last =>
    if nowMs - last < 30000 then
      (participation,
        SingleSyncResult.refusedRateLimited ((30000 - (nowMs - last) + 999) / 1000))
    else syncSingleProceed contest participation fetch nowMs
  | none => syncSingleProceed contest participation fetch nowMs

/-- One iteration of the bulk sync loop over the contest problems
(sync.js lines 378-420).  Unlike the single route, the score is added
unconditionally on acceptance and the FAIL branch raises the
`hasChanges` flag. -/
def processProblemBulk (startT endT : Nat) (subs : List Submission)
    (participation : Participation) (problem : ContestProblem) :
    Participation × Bool :=
  match participation.problem_progress.find? (slugMatch problem.slug) with
  | none => (participation, false)
  | some problemProgress =>
    if problemProgress.status == PStatus.ACCEPTED then (participation, false)
    else
      let scan := scanSubmissions (problemSubmissionsFor problem.slug startT endT subs)
      match scan.2 with
      | some ts =>
        let failCount := scan.1
        let penalty := failCount * 5
        let newProgress := updateFirstSlug problem.slug
          (fun p => { p with
              status := PStatus.ACCEPTED,
              solved_at := some ts,
              fail_count := failCount,
              penalty := penalty })
          participation.problem_progress
        let difficulty := problem.difficulty.getD "Medium"
        let points : Nat :=
          if difficulty == "Easy" then 3
          else if difficulty == "Medium" then 4 else 6
        ({ participation with
            problem_progress := newProgress,
            score := participation.score + points,
            total_penalty := participation.total_penalty + penalty }, true)
      | none =>
        if scan.1 > 0 then
          let newProgress := updateFirstSlug problem.slug
            (fun p => { p with fail_count := scan.1, status := PStatus.FAIL })
            participation.problem_progress
          ({ participation with problem_progress := newProgress }, true)
        else (participation, false)

/-- Bulk sync of one participant: the fold over the contest problems with
the `hasChanges` flag (sync.js lines 375-420). -/
def syncParticipantBulk (startT endT : Nat) (problems : List ContestProblem)
    (subs : List Submission) (participation : Participation) :
    Participation × Bool :=
  problems.foldl
    (fun acc problem =>
      let r := processProblemBulk startT endT subs acc.1 problem
      (r.1, acc.2 || r.2))
    (participation, false)

/-- Result of the bulk sync precondition gates. -/
inductive BulkGateResult
  | refusedFinalized
  | refusedGraceOver
  | refusedCooldown (waitSeconds : Nat)
  | proceed (isGracePeriod : Bool)
deriving DecidableEq, Repr

/-- Grace window after the contest end, in milliseconds. -/
def gracePeriodMs : Nat := 60 * 60 * 1000

/-- Precondition gates of POST /api/sync/sync-all (sync.js lines 299-338):
finalized check, lazy auto-finalization past the grace window, and the
contest-global cooldown (2 minutes during grace, 10 minutes otherwise).
`now` is epoch milliseconds; the contest end is converted to
milliseconds as the route does through Date. -/
def bulkSyncGate (contest : Contest) (now : Nat) : Contest × BulkGateResult :=
  if contest.finalized then (contest, BulkGateResult.refusedFinalized)
  else
    let contestEndTime := contest.end_time * 1000
    let isGracePeriod := decide (now > contestEndTime) &&
      decide (now ≤ contestEndTime + gracePeriodMs)
    if now > contestEndTime + gracePeriodMs then
      ({ contest with finalized := true }, BulkGateResult.refusedGraceOver)
    else
      match contest.last_bulk_sync with
      | some last =>
        let timeSinceLastSync := now - last
        let cooldownMs := if isGracePeriod then 2 * 60 * 1000 else 10 * 60 * 1000
        if timeSinceLastSync < cooldownMs then
          (contest, BulkGateResult.refusedCooldown
            ((cooldownMs - timeSinceLastSync + 999) / 1000))
        else (contest, BulkGateResult.proceed isGracePeriod)
      | none => (contest, BulkGateResult.proceed isGracePeriod)

/-- Input for one participant of a bulk sync: whether a judge account is
linked, the outcome of the submission fetch, and the stored
participation. -/
structure BulkEntry where
  linked : Bool
  fetch : Except Unit (List Submission)
  participation : Participation

/-- Aggregate outcome of a bulk sync batch. -/
structure BulkOutcome where
  participations : List Participation
  synced : Nat
  errors : Nat
  total : Nat
deriving DecidableEq, Repr

/-- The bulk sync batch loop (sync.js lines 348-432 and 459-467):
unlinked participants are skipped, fetch failures are counted as errors,
and a participant is saved (with a fresh `last_sync`) and counted as
synced exactly when the per-participant pass raised `hasChanges`. -/
def bulkBatch (startT endT : Nat) (problems : List ContestProblem) (now : Nat)
    (entries : List BulkEntry) : BulkOutcome :=
  let res := entries.foldl
    (fun (acc : List Participation × Nat × Nat) entry =>
      if ! entry.linked then (acc.1 ++ [entry.participation], acc.2.1, acc.2.2)
      else
        match entry.fetch with
        | Except.error _ => (acc.1 ++ [entry.participation], acc.2.1, acc.2.2 + 1)
        | Except.ok subs =>
          let r := syncParticipantBulk startT endT problems subs entry.participation
          if r.2 then
            (acc.1 ++ [{ r.1 with last_sync := some now }], acc.2.1 + 1, acc.2.2)
          else
            (acc.1 ++ [r.1], acc.2.1, acc.2.2))
    ([], 0, 0)
  ⟨res.1, res.2.1, res.2.2, entries.length⟩

/-- The whole sync-all route after the contest lookup: the gates, then on
proceed the batch together with the `last_bulk_sync` stamp
(sync.js lines 299-467). -/
def bulkSyncAll (contest : Contest) (now : Nat) (entries : List BulkEntry) :
    Contest × BulkGateResult × Option BulkOutcome :=
  let g := bulkSyncGate contest now
  match g.2 with
  | BulkGateResult.proceed grace =>
    ({ g.1 with last_bulk_sync := some now }, BulkGateResult.proceed grace,
      some (bulkBatch contest.start_time contest.end_time contest.problems now entries))
  | r => (g.1, r, none)

/-- Order of the rank recomputation: Mongo sort by score descending,
total penalty ascending (sync.js lines 173-174 and 439-440). -/
def rankBefore (a b : Participation) : Prop :=
  b.score < a.score ∨ (a.score = b.score ∧ a.total_penalty ≤ b.total_penalty)

instance : DecidableRel rankBefore := fun a b =>
  inferInstanceAs (Decidable (b.score < a.score ∨
    (a.score = b.score ∧ a.total_penalty ≤ b.total_penalty)))

instance : IsTotal Participation rankBefore := by
  constructor
  intro a b
  rcases Nat.lt_trichotomy a.score b.score with h | h | h
  · exact Or.inr (Or.inl h)
  · rcases Nat.le_total a.total_penalty b.total_penalty with hp | hp
    · exact Or.inl (Or.inr ⟨h, hp⟩)
    · exact Or.inr (Or.inr ⟨h.symm, hp⟩)
  · exact Or.inl (Or.inl h)

instance : IsTrans Participation rankBefore := by
  constructor
  intro a b c hab hbc
  rcases hab with h1 | ⟨h1, h1p⟩
  · rcases hbc with h2 | ⟨h2, _⟩
    · exact Or.inl (Nat.lt_trans h2 h1)
    · exact Or.inl (h2 ▸ h1)
  · rcases hbc with h2 | ⟨h2, h2p⟩
    · exact Or.inl (h1 ▸ h2)
    · exact Or.inr ⟨h1.trans h2, h1p.trans h2p⟩

/-- The sorted participant list the rank loop iterates over. -/
def rankSorted (participations : List Participation) : List Participation :=
  participations.insertionSort rankBefore

/-- Rank assignment loop: the 1-based position in the sorted order
becomes the stored rank (sync.js lines 176-183 and 442-449). -/
def assignRanks : Nat → List Participation → List Participation
  | _, [] => []
  | i, p :: rest => { p with rank := some (i + 1) } :: assignRanks (i + 1) rest

/-- The entries the rank loop actually writes: exactly those whose
stored rank differs from the computed 1-based position. -/
def rankWrites : Nat → List Participation → List Participation
  | _, [] => []
  | i, p :: rest =>
    if p.rank == some (i + 1) then rankWrites (i + 1) rest
    else { p with rank := some (i + 1) } :: rankWrites (i + 1) rest

/-- Rank recomputation (sync.js lines 171-184 and 438-450): sort all
participations of the contest by score descending / penalty ascending,
assign 1-based positions, and report which entries required a write. -/
def recomputeRanks (participations : List Participation) :
    List Participation × List Participation :=
  (assignRanks 0 (rankSorted participations),
    rankWrites 0 (rankSorted participations))

/-- Error shape thrown by the HTTP client: an optional response status
and an optional error code. -/
structure UpstreamError where
  status : Option Nat
  code : Option String
deriving DecidableEq, Repr

/-- Transient-failure test of retryWithBackoff
(leetcodeService.js lines 152-156). -/
def isRetryable (e : UpstreamError) : Bool :=
  e.status == some 504 || e.status == some 429 || e.status == some 503 ||
    e.code == some "ECONNABORTED" || e.code == some "ETIMEDOUT"

/-- Backoff delay slept before retrying attempt `attempt + 1`:
`baseDelay * 2 ^ attempt` scaled by the jitter factor
`0.75 + rand attempt * 0.5` (leetcodeService.js lines 162-166). -/
def jitterDelay (baseDelay : ℚ) (rand : Nat → ℚ) (attempt : Nat) : ℚ :=
  baseDelay * 2 ^ attempt * (3 / 4 + rand attempt * (1 / 2))

/-- The retryWithBackoff loop (leetcodeService.js lines 147-169).  The
outcome of each call and the random draws are supplied as oracles; the
result is the final outcome together with the list of delays slept.
The second argument of the recursion is the number of attempts still
available (initially maxRetries). -/
def retryAux (attempts : Nat → Except UpstreamError α) (rand : Nat → ℚ)
    (baseDelay : ℚ) : Nat → Nat → Except UpstreamError α × List ℚ
  | attempt, 0 => (attempts attempt, [])
  | attempt, 1 => (attempts attempt, [])
  | attempt, fuel + 2 =>
    match attempts attempt with
    | Except.ok a => (Except.ok a, [])
    | Except.error e =>
      if isRetryable e then
        let r := retryAux attempts rand baseDelay (attempt + 1) (fuel + 1)
        (r.1, jitterDelay baseDelay rand attempt :: r.2)
      else (Except.error e, [])

/-- retryWithBackoff at its call-site parameters: maxRetries 5 and
baseDelay 2000 milliseconds. -/
def retryWithBackoff (attempts : Nat → Except UpstreamError α) (rand : Nat → ℚ) :
    Except UpstreamError α × List ℚ :=
  retryAux attempts rand 2000 0 5

/-- Shape of the GraphQL response body consumed by getRecentSubmissions. -/
structure LCResponse where
  hasErrors : Bool
  recentSubmissionList : Option (List Submission)

/-- getRecentSubmissions (leetcodeService.js lines 177-197): retry the
fetch, reject a response carrying GraphQL errors, and wrap every failure
into the single fetch-failed error; a missing list field degrades to the
empty list, never to partial data. -/
def getRecentSubmissions (attempts : Nat → Except UpstreamError LCResponse)
    (rand : Nat → ℚ) : Except String (List Submission) :=
  match (retryWithBackoff attempts rand).1 with
  | Except.error _ => Except.error "Failed to fetch submissions"
  | Except.ok resp =>
    if resp.hasErrors then Except.error "Failed to fetch submissions"
    else Except.ok (resp.recentSubmissionList.getD [])

/-- Whether a bulk entry ends up counted as synced: linked account,
successful fetch, and the per-participant pass raised hasChanges. -/
def entrySynced (startT endT : Nat) (problems : List ContestProblem)
    (entry : BulkEntry) : Bool :=
  entry.linked &&
    match entry.fetch with
    | Except.ok subs =>
      (syncParticipantBulk startT endT problems subs entry.participation).2
    | Except.error _ => false

/-- Whether a bulk entry is counted as an error: linked account whose
fetch failed. -/
def entryErrored (entry : BulkEntry) : Bool :=
  entry.linked &&
    match entry.fetch with
    | Except.ok _ => false
    | Except.error _ => true

/-- The stored participation of one bulk entry after the batch. -/
def entryResult (startT endT : Nat) (problems : List ContestProblem)
    (now : Nat) (entry : BulkEntry) : Participation :=
  if ! entry.linked then entry.participation
  else
    match entry.fetch with
    | Except.error _ => entry.participation
    | Except.ok subs =>
      let r := syncParticipantBulk startT endT problems subs entry.participation
      if r.2 then { r.1 with last_sync := some now } else r.1

/-- Erase the rank field, to compare participant content across the
rank rewrite. -/
def stripRank (p : Participation) : Participation := { p with rank := none }

/-- A progress list is stable for one slug against a fixed feed when
reprocessing that slug cannot change it: its entry is terminal ACCEPTED,
or the scan finds no accepted entry and either no attempt at all or a
FAIL state that re-derives to the very same values. -/
def entryStable (startT endT : Nat) (subs : List Submission) (slug : String)
    (l : List ProblemProgress) : Prop :=
  ∀ pp, l.find? (slugMatch slug) = some pp →
    pp.status = PStatus.ACCEPTED ∨
      ((scanSubmissions (problemSubmissionsFor slug startT endT subs)).2 = none ∧
        ((scanSubmissions (problemSubmissionsFor slug startT endT subs)).1 = 0 ∨
          ({ pp with
              fail_count := (scanSubmissions
                (problemSubmissionsFor slug startT endT subs)).1,
              status := PStatus.FAIL } = pp)))

/-! ### Basic lemmas about the progress-list update -/

theorem slugMatch_eq_true {s : String} {p : ProblemProgress} :
    slugMatch s p = true ↔ p.slug = s := by
  simp [slugMatch]

theorem updateFirstSlug_of_find?_none {s : String}
    {f : ProblemProgress → ProblemProgress} :
    ∀ {l : List ProblemProgress}, l.find? (slugMatch s) = none →
      updateFirstSlug s f l = l := by
  intro l
  induction l with
  | nil => intro _; rfl
  | cons p rest ih =>
    intro h
    rw [List.find?_cons] at h
    unfold updateFirstSlug
    by_cases hp : p.slug == s
    · simp [slugMatch, hp] at h
    · simp only [slugMatch, hp] at h
      simp [hp, ih h]

theorem updateFirstSlug_id {s : String} {f : ProblemProgress → ProblemProgress}
    {pp : ProblemProgress} :
    ∀ {l : List ProblemProgress}, l.find? (slugMatch s) = some pp → f pp = pp →
      updateFirstSlug s f l = l := by
  intro l
  induction l with
  | nil => intro h; simp at h
  | cons p rest ih =>
    intro h hf
    rw [List.find?_cons] at h
    unfold updateFirstSlug
    by_cases hp : p.slug == s
    · simp only [slugMatch, hp] at h
      cases h
      simp [hp, hf]
    · simp only [slugMatch, hp] at h
      simp [hp, ih h hf]

theorem find?_updateFirstSlug {s : String} {f : ProblemProgress → ProblemProgress}
    {pp : ProblemProgress} :
    ∀ {l : List ProblemProgress}, l.find? (slugMatch s) = some pp →
      (f pp).slug = pp.slug →
      (updateFirstSlug s f l).find? (slugMatch s) = some (f pp) := by
  intro l
  induction l with
  | nil => intro h; simp at h
  | cons p rest ih =>
    intro h hf
    rw [List.find?_cons] at h
    by_cases hp : p.slug == s
    · simp only [slugMatch, hp] at h
      cases h
      have hm : slugMatch s (f pp) = true := by
        rw [slugMatch_eq_true, hf]
        exact eq_of_beq hp
      simp [updateFirstSlug, hp, List.find?_cons, hm]
    · have hp2 : (p.slug == s) = false := by simpa using hp
      simp only [slugMatch, hp2] at h
      have hm : slugMatch s p = false := hp2
      simp [updateFirstSlug, hp2, List.find?_cons, hm, ih h hf]

theorem find?_updateFirstSlug_ne {s s2 : String}
    {f : ProblemProgress → ProblemProgress} (hne : s ≠ s2)
    (hf : ∀ p, (f p).slug = p.slug) :
    ∀ (l : List ProblemProgress),
      (updateFirstSlug s2 f l).find? (slugMatch s) = l.find? (slugMatch s) := by
  intro l
  induction l with
  | nil => rfl
  | cons p rest ih =>
    by_cases hp : p.slug == s2
    · have hps : slugMatch s p = false := by
        simp only [slugMatch, beq_eq_false_iff_ne, ne_eq]
        intro hc
        exact hne (hc ▸ eq_of_beq hp)
      have hfs : slugMatch s (f p) = false := by
        simp only [slugMatch, beq_eq_false_iff_ne, ne_eq, hf p]
        intro hc
        exact hne (hc ▸ eq_of_beq hp)
      simp [updateFirstSlug, hp, List.find?_cons, hps, hfs]
    · have hp2 : (p.slug == s2) = false := by simpa using hp
      by_cases hps : slugMatch s p
      · simp [updateFirstSlug, hp2, List.find?_cons, hps]
      · simp only [Bool.not_eq_true] at hps
        simp [updateFirstSlug, hp2, List.find?_cons, hps, ih]

theorem getElem?_updateFirstSlug_of_accepted {s : String}
    {f : ProblemProgress → ProblemProgress} {q pp : ProblemProgress} :
    ∀ {l : List ProblemProgress} {i : Nat}, l.find? (slugMatch s) = some q →
      q.status ≠ PStatus.ACCEPTED → l[i]? = some pp →
      pp.status = PStatus.ACCEPTED →
      (updateFirstSlug s f l)[i]? = some pp := by
  intro l
  induction l with
  | nil => intro i h; simp at h
  | cons p rest ih =>
    intro i h hq hi hacc
    rw [List.find?_cons] at h
    by_cases hp : p.slug == s
    · simp only [slugMatch, hp] at h
      cases h
      match i with
      | 0 =>
        rw [List.getElem?_cons_zero] at hi
        cases hi
        exact absurd hacc hq
      | Nat.succ j =>
        rw [List.getElem?_cons_succ] at hi
        simp [updateFirstSlug, hp, List.getElem?_cons_succ, hi]
    · have hp2 : (p.slug == s) = false := by simpa using hp
      simp only [slugMatch, hp2] at h
      match i with
      | 0 =>
        rw [List.getElem?_cons_zero] at hi
        simp [updateFirstSlug, hp2, List.getElem?_cons_zero, hi]
      | Nat.succ j =>
        rw [List.getElem?_cons_succ] at hi
        simp [updateFirstSlug, hp2, List.getElem?_cons_succ, ih h hq hi hacc]

/-! ### The terminal-state invariant -/

theorem processProblemSingle_preserves {startT endT : Nat} {subs : List Submission}
    {participation : Participation} {problem : ContestProblem}
    {i : Nat} {pp : ProblemProgress}
    (hi : participation.problem_progress[i]? = some pp)
    (hacc : pp.status = PStatus.ACCEPTED) :
    (processProblemSingle startT endT subs participation
      problem).1.problem_progress[i]? = some pp := by
  unfold processProblemSingle
  cases hfind : participation.problem_progress.find? (slugMatch problem.slug) with
  | none => simpa using hi
  | some q =>
    by_cases hst : q.status == PStatus.ACCEPTED
    · simp [hst, hi]
    · have hq : q.status ≠ PStatus.ACCEPTED := by simpa using hst
      have hst2 : (q.status == PStatus.ACCEPTED) = false := by simpa using hst
      cases hscan : (scanSubmissions (problemSubmissionsFor problem.slug startT endT subs)).2 with
      | some ts =>
        simp only [hst2, Bool.false_eq_true, if_false, hscan]
        split
        · exact getElem?_updateFirstSlug_of_accepted hfind hq hi hacc
        · exact getElem?_updateFirstSlug_of_accepted hfind hq hi hacc
      | none =>
        simp only [hst2, Bool.false_eq_true, if_false, hscan]
        split
        · exact getElem?_updateFirstSlug_of_accepted hfind hq hi hacc
        · simpa using hi

theorem processProblemBulk_preserves {startT endT : Nat} {subs : List Submission}
    {participation : Participation} {problem : ContestProblem}
    {i : Nat} {pp : ProblemProgress}
    (hi : participation.problem_progress[i]? = some pp)
    (hacc : pp.status = PStatus.ACCEPTED) :
    (processProblemBulk startT endT subs participation
      problem).1.problem_progress[i]? = some pp := by
  unfold processProblemBulk
  cases hfind : participation.problem_progress.find? (slugMatch problem.slug) with
  | none => simpa using hi
  | some q =>
    by_cases hst : q.status == PStatus.ACCEPTED
    · simp [hst, hi]
    · have hq : q.status ≠ PStatus.ACCEPTED := by simpa using hst
      have hst2 : (q.status == PStatus.ACCEPTED) = false := by simpa using hst
      cases hscan : (scanSubmissions (problemSubmissionsFor problem.slug startT endT subs)).2 with
      | some ts =>
        simp only [hst2, Bool.false_eq_true, if_false, hscan]
        exact getElem?_updateFirstSlug_of_accepted hfind hq hi hacc
      | none =>
        simp only [hst2, Bool.false_eq_true, if_false, hscan]
        split
        · exact getElem?_updateFirstSlug_of_accepted hfind hq hi hacc
        · simpa using hi

theorem syncPassSingle_preserves {contest : Contest} {participation : Participation}
    {subs : List Submission} {i : Nat} {pp : ProblemProgress}
    (hi : participation.problem_progress[i]? = some pp)
    (hacc : pp.status = PStatus.ACCEPTED) :
    (syncPassSingle contest participation subs).1.problem_progress[i]? = some pp := by
  unfold syncPassSingle
  generalize hstart : (participation, false) = acc0
  have hi0 : acc0.1.problem_progress[i]? = some pp := by rw [← hstart]; exact hi
  clear hstart hi
  induction contest.problems generalizing acc0 with
  | nil => simpa using hi0
  | cons pb rest ih =>
    rw [List.foldl_cons]
    exact ih _ (processProblemSingle_preserves hi0 hacc)

theorem syncParticipantBulk_preserves {startT endT : Nat}
    {problems : List ContestProblem} {subs : List Submission}
    {participation : Participation} {i : Nat} {pp : ProblemProgress}
    (hi : participation.problem_progress[i]? = some pp)
    (hacc : pp.status = PStatus.ACCEPTED) :
    (syncParticipantBulk startT endT problems subs
      participation).1.problem_progress[i]? = some pp := by
  unfold syncParticipantBulk
  generalize hstart : (participation, false) = acc0
  have hi0 : acc0.1.problem_progress[i]? = some pp := by rw [← hstart]; exact hi
  clear hstart hi
  induction problems generalizing acc0 with
  | nil => simpa using hi0
  | cons pb rest ih =>
    rw [List.foldl_cons]
    exact ih _ (processProblemBulk_preserves hi0 hacc)

/-- C4: for every ProblemProgress with status ACCEPTED, every subsequent
sync engine invocation — the single-participant pass as well as the bulk
per-participant pass — leaves the whole record (status, solved_at,
fail_count and penalty) unchanged, for every possible submission feed. -/
theorem accepted_is_terminal (contest : Contest) (startT endT : Nat)
    (problems : List ContestProblem) (participation : Participation)
    (subs : List Submission) (i : Nat) (pp : ProblemProgress)
    (hi : participation.problem_progress[i]? = some pp)
    (hacc : pp.status = PStatus.ACCEPTED) :
    (syncPassSingle contest participation subs).1.problem_progress[i]? = some pp ∧
    (syncParticipantBulk startT endT problems subs
      participation).1.problem_progress[i]? = some pp :=
  ⟨syncPassSingle_preserves hi hacc, syncParticipantBulk_preserves hi hacc⟩

/-- Witness for C4: a concrete already-accepted record survives a pass
whose feed even contains new failed and accepted submissions for it. -/
theorem accepted_is_terminal_witness :
    (⟨0, 0, [⟨"w", PStatus.ACCEPTED, 1, some 150, 5⟩], none, none⟩ :
        Participation).problem_progress[0]? =
      some ⟨"w", PStatus.ACCEPTED, 1, some 150, 5⟩ ∧
    (syncPassSingle ⟨[⟨"w", some "Easy"⟩], 100, 200, false, none⟩
      ⟨0, 0, [⟨"w", PStatus.ACCEPTED, 1, some 150, 5⟩], none, none⟩
      [⟨"w", 160, "Wrong Answer"⟩, ⟨"w", 170, "Accepted"⟩]).1.problem_progress[0]? =
      some ⟨"w", PStatus.ACCEPTED, 1, some 150, 5⟩ ∧
    (syncParticipantBulk 100 200 [⟨"w", some "Easy"⟩]
      [⟨"w", 160, "Wrong Answer"⟩, ⟨"w", 170, "Accepted"⟩]
      ⟨0, 0, [⟨"w", PStatus.ACCEPTED, 1, some 150, 5⟩], none, none⟩).1.problem_progress[0]? =
      some ⟨"w", PStatus.ACCEPTED, 1, some 150, 5⟩ := by
  refine ⟨by decide, ?_, ?_⟩
  · exact (accepted_is_terminal ⟨[⟨"w", some "Easy"⟩], 100, 200, false, none⟩ 100 200
      [⟨"w", some "Easy"⟩] _ [⟨"w", 160, "Wrong Answer"⟩, ⟨"w", 170, "Accepted"⟩] 0
      ⟨"w", PStatus.ACCEPTED, 1, some 150, 5⟩ (by decide) (by decide)).1
  · exact (accepted_is_terminal ⟨[⟨"w", some "Easy"⟩], 100, 200, false, none⟩ 100 200
      [⟨"w", some "Easy"⟩] _ [⟨"w", 160, "Wrong Answer"⟩, ⟨"w", 170, "Accepted"⟩] 0
      ⟨"w", PStatus.ACCEPTED, 1, some 150, 5⟩ (by decide) (by decide)).2

/-! ### The score gate of the single-participant route -/

/-- C1: the single-participant score gate does not implement
exactly-once scoring.  The gate `score == 0 || not (some entry with this
slug is ACCEPTED)` is evaluated after the entry has already been flipped
to ACCEPTED, so its second disjunct is always false and the points are
added only when the prior score was 0.  Concretely: the participation
already has score 3 from problem p1; problem p2 transitions into
ACCEPTED during this pass, yet the score stays 3, the penalty is not
accumulated, and the pass reports that no score changed. -/
theorem score_gate_skips_nonzero_score :
    syncPassSingle
      ⟨[⟨"p1", some "Easy"⟩, ⟨"p2", some "Easy"⟩], 100, 200, false, none⟩
      ⟨3, 0, [⟨"p1", PStatus.ACCEPTED, 0, some 150, 0⟩,
              ⟨"p2", PStatus.PENDING, 0, none, 0⟩], none, none⟩
      [⟨"p2", 160, "Accepted"⟩] =
    (⟨3, 0, [⟨"p1", PStatus.ACCEPTED, 0, some 150, 0⟩,
             ⟨"p2", PStatus.ACCEPTED, 0, some 160, 0⟩], none, none⟩, false) := by
  decide

/-! ### Missing phase gate of the single-participant route -/

/-- C2: the single-participant sync route consults neither the contest
phase nor the finalized flag.  On a finalized contest whose end lies far
behind the one-hour grace window (nowMs is well past
end_time * 1000 + 1h), the request is still accepted — the route runs
the pass and mutates the participation by stamping `last_sync` — where
the claim requires a refusal without mutation. -/
theorem single_sync_ignores_contest_phase :
    (⟨[⟨"a", some "Easy"⟩], 100, 200, true, none⟩ : Contest).finalized = true ∧
    10000000000 > 200 * 1000 + gracePeriodMs ∧
    syncSingleRequest ⟨[⟨"a", some "Easy"⟩], 100, 200, true, none⟩
      ⟨0, 0, [⟨"a", PStatus.PENDING, 0, none, 0⟩], none, none⟩ (Except.ok [])
      10000000000 =
    (⟨0, 0, [⟨"a", PStatus.PENDING, 0, none, 0⟩], some 10000000000, none⟩,
      SingleSyncResult.synced false "No new submissions found") := by
  refine ⟨rfl, by decide, ?_⟩
  decide

/-! ### Bulk-sync finalization gates -/

theorem bulkSyncAll_of_finalized {contest : Contest} (h : contest.finalized = true)
    (now : Nat) (entries : List BulkEntry) :
    bulkSyncAll contest now entries =
      (contest, BulkGateResult.refusedFinalized, none) := by
  unfold bulkSyncAll bulkSyncGate
  simp [h]

/-- C6: the bulk sync finalization gates.  A bulk request on a finalized
contest is refused with no batch run and no state change; a bulk request
observing now past end_time + 1h on a non-finalized contest flips
finalized to true and refuses with no batch; and from any invocation
whose resulting contest is finalized, every later bulk request is again
refused without a batch — the gate never unsets the flag. -/
theorem bulk_finalization_gate (contest : Contest) (now : Nat)
    (entries : List BulkEntry) :
    (contest.finalized = true →
      bulkSyncAll contest now entries =
        (contest, BulkGateResult.refusedFinalized, none)) ∧
    (contest.finalized = false → now > contest.end_time * 1000 + gracePeriodMs →
      bulkSyncAll contest now entries =
        ({ contest with finalized := true }, BulkGateResult.refusedGraceOver, none)) ∧
    ((bulkSyncAll contest now entries).1.finalized = true →
      ∀ (later : Nat) (entries2 : List BulkEntry),
        bulkSyncAll (bulkSyncAll contest now entries).1 later entries2 =
          ((bulkSyncAll contest now entries).1,
            BulkGateResult.refusedFinalized, none)) := by
  refine ⟨fun h => bulkSyncAll_of_finalized h now entries, fun h1 h2 => ?_, ?_⟩
  · unfold bulkSyncAll bulkSyncGate
    simp [h1, h2]
  · intro hf later entries2
    exact bulkSyncAll_of_finalized hf later entries2

/-- Witness for C6: a contest observed 70 minutes after its end is
auto-finalized and refused, and a later attempt on the result is refused
through the finalized check. -/
theorem bulk_finalization_gate_witness :
    ((⟨[], 100, 3600, false, none⟩ : Contest).finalized = false ∧
      7800000 > (3600 : Nat) * 1000 + gracePeriodMs ∧
      bulkSyncAll ⟨[], 100, 3600, false, none⟩ 7800000 [] =
        (⟨[], 100, 3600, true, none⟩, BulkGateResult.refusedGraceOver, none)) ∧
    bulkSyncAll ⟨[], 100, 3600, true, none⟩ 7900000 [] =
      (⟨[], 100, 3600, true, none⟩, BulkGateResult.refusedFinalized, none) := by
  constructor
  · exact ⟨rfl, by decide,
      (bulk_finalization_gate ⟨[], 100, 3600, false, none⟩ 7800000 []).2.1 rfl (by decide)⟩
  · exact (bulk_finalization_gate ⟨[], 100, 3600, true, none⟩ 7900000 []).1 rfl

/-! ### Window exclusion -/

theorem problemSubmissionsFor_drop {r : Submission} {startT endT : Nat}
    (hr : r.timestamp < startT ∨ endT < r.timestamp) (slug : String)
    (l1 l2 : List Submission) :
    problemSubmissionsFor slug startT endT (l1 ++ r :: l2) =
      problemSubmissionsFor slug startT endT (l1 ++ l2) := by
  unfold problemSubmissionsFor
  have hw : inWindow startT endT r = false := by
    unfold inWindow
    rcases hr with h | h
    · simp [Nat.not_le.mpr h]
    · simp [Nat.not_le.mpr h]
  have hp : (r.titleSlug == slug && inWindow startT endT r) = false := by
    simp [hw]
  rw [List.filter_append, List.filter_append, List.filter_cons, hp]
  simp

theorem processProblemSingle_congr {startT endT : Nat}
    {subsA subsB : List Submission}
    (h : ∀ slug, problemSubmissionsFor slug startT endT subsA =
      problemSubmissionsFor slug startT endT subsB)
    (participation : Participation) (problem : ContestProblem) :
    processProblemSingle startT endT subsA participation problem =
      processProblemSingle startT endT subsB participation problem := by
  unfold processProblemSingle
  rw [h problem.slug]

theorem processProblemBulk_congr {startT endT : Nat}
    {subsA subsB : List Submission}
    (h : ∀ slug, problemSubmissionsFor slug startT endT subsA =
      problemSubmissionsFor slug startT endT subsB)
    (participation : Participation) (problem : ContestProblem) :
    processProblemBulk startT endT subsA participation problem =
      processProblemBulk startT endT subsB participation problem := by
  unfold processProblemBulk
  rw [h problem.slug]

theorem syncPassSingle_congr {contest : Contest} {subsA subsB : List Submission}
    (h : ∀ slug, problemSubmissionsFor slug contest.start_time contest.end_time subsA =
      problemSubmissionsFor slug contest.start_time contest.end_time subsB)
    (participation : Participation) :
    syncPassSingle contest participation subsA =
      syncPassSingle contest participation subsB := by
  unfold syncPassSingle
  have hfun : (fun (acc : Participation × Bool) problem =>
      let r := processProblemSingle contest.start_time contest.end_time subsA
        acc.1 problem
      (r.1, acc.2 || r.2)) =
      (fun (acc : Participation × Bool) problem =>
        let r := processProblemSingle contest.start_time contest.end_time subsB
          acc.1 problem
        (r.1, acc.2 || r.2)) := by
    funext acc problem
    rw [processProblemSingle_congr h]
  rw [hfun]

theorem syncParticipantBulk_congr {startT endT : Nat}
    {problems : List ContestProblem} {subsA subsB : List Submission}
    (h : ∀ slug, problemSubmissionsFor slug startT endT subsA =
      problemSubmissionsFor slug startT endT subsB)
    (participation : Participation) :
    syncParticipantBulk startT endT problems subsA participation =
      syncParticipantBulk startT endT problems subsB participation := by
  unfold syncParticipantBulk
  have hfun : (fun (acc : Participation × Bool) problem =>
      let r := processProblemBulk startT endT subsA acc.1 problem
      (r.1, acc.2 || r.2)) =
      (fun (acc : Participation × Bool) problem =>
        let r := processProblemBulk startT endT subsB acc.1 problem
        (r.1, acc.2 || r.2)) := by
    funext acc problem
    rw [processProblemBulk_congr h]
  rw [hfun]

/-- C7: a submission strictly outside the contest window never affects
any outcome of a sync pass, even with an Accepted verdict: deleting it
from the feed, wherever it sits, leaves both the single-participant pass
and the bulk per-participant pass (run over the same window) with
identical results. -/
theorem window_exclusion (contest : Contest) (participation : Participation)
    (problems : List ContestProblem) (r : Submission) (l1 l2 : List Submission)
    (hr : r.timestamp < contest.start_time ∨ contest.end_time < r.timestamp) :
    syncPassSingle contest participation (l1 ++ r :: l2) =
      syncPassSingle contest participation (l1 ++ l2) ∧
    syncParticipantBulk contest.start_time contest.end_time problems
        (l1 ++ r :: l2) participation =
      syncParticipantBulk contest.start_time contest.end_time problems
        (l1 ++ l2) participation := by
  constructor
  · exact syncPassSingle_congr
      (fun slug => problemSubmissionsFor_drop hr slug l1 l2) participation
  · exact syncParticipantBulk_congr
      (fun slug => problemSubmissionsFor_drop hr slug l1 l2) participation

/-- Witness for C7: an Accepted submission for a contest problem stamped
after the window (timestamp 250 against window [100, 200]) changes
nothing. -/
theorem window_exclusion_witness :
    ((250 : Nat) < 100 ∨ (200 : Nat) < 250) ∧
    syncPassSingle ⟨[⟨"a", some "Easy"⟩], 100, 200, false, none⟩
        ⟨0, 0, [⟨"a", PStatus.PENDING, 0, none, 0⟩], none, none⟩
        ([⟨"a", 150, "Wrong Answer"⟩] ++ ⟨"a", 250, "Accepted"⟩ :: []) =
      syncPassSingle ⟨[⟨"a", some "Easy"⟩], 100, 200, false, none⟩
        ⟨0, 0, [⟨"a", PStatus.PENDING, 0, none, 0⟩], none, none⟩
        ([⟨"a", 150, "Wrong Answer"⟩] ++ []) :=
  ⟨Or.inr (by decide),
    (window_exclusion ⟨[⟨"a", some "Easy"⟩], 100, 200, false, none⟩
      ⟨0, 0, [⟨"a", PStatus.PENDING, 0, none, 0⟩], none, none⟩
      [] ⟨"a", 250, "Accepted"⟩ [⟨"a", 150, "Wrong Answer"⟩] []
      (Or.inr (by decide))).1⟩

/-! ### Bulk batch counters -/

theorem processProblemBulk_of_not_changed {startT endT : Nat}
    {subs : List Submission} {participation : Participation}
    {problem : ContestProblem}
    (h : (processProblemBulk startT endT subs participation problem).2 = false) :
    (processProblemBulk startT endT subs participation problem).1 =
      participation := by
  unfold processProblemBulk at h ⊢
  cases hfind : participation.problem_progress.find? (slugMatch problem.slug) with
  | none => simp [hfind]
  | some q =>
    by_cases hst : q.status == PStatus.ACCEPTED
    · simp [hfind, hst]
    · have hst2 : (q.status == PStatus.ACCEPTED) = false := by simpa using hst
      cases hscan : (scanSubmissions (problemSubmissionsFor problem.slug startT endT subs)).2 with
      | some ts =>
        rw [hfind] at h
        simp only [hst2, Bool.false_eq_true, if_false, hscan] at h
        exact Bool.noConfusion h
      | none =>
        rw [hfind] at h
        simp only [hst2, Bool.false_eq_true, if_false, hscan] at h ⊢
        split at h
        · simp at h
        · simp_all

theorem syncParticipantBulk_of_not_changed {startT endT : Nat}
    {problems : List ContestProblem} {subs : List Submission}
    {participation : Participation}
    (h : (syncParticipantBulk startT endT problems subs participation).2 = false) :
    (syncParticipantBulk startT endT problems subs participation).1 =
      participation := by
  unfold syncParticipantBulk at h ⊢
  suffices haux : ∀ (probs : List ContestProblem) (acc : Participation × Bool),
      (probs.foldl (fun acc problem =>
        let r := processProblemBulk startT endT subs acc.1 problem
        (r.1, acc.2 || r.2)) acc).2 = false →
      (probs.foldl (fun acc problem =>
        let r := processProblemBulk startT endT subs acc.1 problem
        (r.1, acc.2 || r.2)) acc).1 = acc.1 ∧ acc.2 = false by
    exact (haux _ _ h).1
  intro probs
  induction probs with
  | nil => intro acc hacc; exact ⟨rfl, hacc⟩
  | cons pb rest ih =>
    intro acc hacc
    rw [List.foldl_cons] at hacc ⊢
    obtain ⟨h1, h2⟩ := ih _ hacc
    obtain ⟨ha, hr⟩ := Bool.or_eq_false_iff.mp h2
    refine ⟨?_, ha⟩
    rw [h1]
    exact processProblemBulk_of_not_changed hr

theorem bulkBatch_eq (startT endT : Nat) (problems : List ContestProblem)
    (now : Nat) (entries : List BulkEntry) :
    bulkBatch startT endT problems now entries =
      ⟨entries.map (entryResult startT endT problems now),
        (entries.filter (entrySynced startT endT problems)).length,
        (entries.filter entryErrored).length,
        entries.length⟩ := by
  unfold bulkBatch
  suffices haux : ∀ (es : List BulkEntry) (acc : List Participation × Nat × Nat),
      es.foldl (fun (acc : List Participation × Nat × Nat) entry =>
        if ! entry.linked then (acc.1 ++ [entry.participation], acc.2.1, acc.2.2)
        else
          match entry.fetch with
          | Except.error _ => (acc.1 ++ [entry.participation], acc.2.1, acc.2.2 + 1)
          | Except.ok subs =>
            let r := syncParticipantBulk startT endT problems subs entry.participation
            if r.2 then
              (acc.1 ++ [{ r.1 with last_sync := some now }], acc.2.1 + 1, acc.2.2)
            else
              (acc.1 ++ [r.1], acc.2.1, acc.2.2)) acc =
      (acc.1 ++ es.map (entryResult startT endT problems now),
        acc.2.1 + (es.filter (entrySynced startT endT problems)).length,
        acc.2.2 + (es.filter entryErrored).length) by
    rw [haux entries ([], 0, 0)]
    simp
  intro es
  induction es with
  | nil => intro acc; simp
  | cons e rest ih =>
    intro acc
    rw [List.foldl_cons, ih]
    by_cases hl : e.linked
    · cases hf : e.fetch with
      | error u =>
        have hs : entrySynced startT endT problems e = false := by
          simp [entrySynced, hf]
        have he : entryErrored e = true := by
          simp [entryErrored, hl, hf]
        have hres : entryResult startT endT problems now e = e.participation := by
          simp [entryResult, hl, hf]
        simp [hl, hf, List.filter_cons, hs, he, hres, List.append_assoc]
        omega
      | ok subs =>
        by_cases hc : (syncParticipantBulk startT endT problems subs e.participation).2
        · have hs : entrySynced startT endT problems e = true := by
            simp [entrySynced, hl, hf, hc]
          have he : entryErrored e = false := by
            simp [entryErrored, hf]
          have hres : entryResult startT endT problems now e =
              { (syncParticipantBulk startT endT problems subs e.participation).1 with
                last_sync := some now } := by
            simp [entryResult, hl, hf, hc]
          simp [hl, hf, hc, List.filter_cons, hs, he, hres, List.append_assoc]
          omega
        · have hc2 : (syncParticipantBulk startT endT problems subs e.participation).2 = false := by
            simpa using hc
          have hs : entrySynced startT endT problems e = false := by
            simp [entrySynced, hf, hc2]
          have he : entryErrored e = false := by
            simp [entryErrored, hf]
          have hres : entryResult startT endT problems now e =
              (syncParticipantBulk startT endT problems subs e.participation).1 := by
            simp [entryResult, hl, hf, hc2]
          simp [hl, hf, hc2, List.filter_cons, hs, he, hres, List.append_assoc]
    · have hl2 : e.linked = false := by simpa using hl
      have hs : entrySynced startT endT problems e = false := by
        simp [entrySynced, hl2]
      have he : entryErrored e = false := by
        simp [entryErrored, hl2]
      have hres : entryResult startT endT problems now e = e.participation := by
        simp [entryResult, hl2]
      simp [hl2, List.filter_cons, hs, he, hres, List.append_assoc]

theorem filter_pair_disjoint_length_le {α : Type} (p q : α → Bool)
    (hdisj : ∀ x, ¬(p x = true ∧ q x = true)) :
    ∀ l : List α, (l.filter p).length + (l.filter q).length ≤ l.length := by
  intro l
  induction l with
  | nil => simp
  | cons x rest ih =>
    rw [List.filter_cons, List.filter_cons]
    by_cases hp : p x
    · have hq : q x = false := by
        by_contra hq
        exact hdisj x ⟨hp, by simpa using hq⟩
      simp only [hp, if_true, hq, Bool.false_eq_true, if_false, List.length_cons,
        List.length]
      omega
    · have hp2 : p x = false := by simpa using hp
      by_cases hq : q x
      · simp only [hp2, Bool.false_eq_true, if_false, hq, if_true, List.length_cons]
        omega
      · have hq2 : q x = false := by simpa using hq
        simp only [hp2, hq2, Bool.false_eq_true, if_false, List.length_cons]
        omega

/-- C10 counterexample: a feed that merely re-derives the stored FAIL
state (one in-window failed submission against an entry already FAIL
with fail_count 1) still raises hasChanges, so the participant counts as
synced and receives a fresh `last_sync` although no scoring field
changed — the batch reports synced = 1 while score, penalty and the
whole progress list are identical to the input. -/
theorem bulk_synced_counts_unchanged_rewrite :
    bulkBatch 100 200 [⟨"a", some "Easy"⟩] 999
      [⟨true, Except.ok [⟨"a", 150, "Wrong Answer"⟩],
        ⟨0, 0, [⟨"a", PStatus.FAIL, 1, none, 0⟩], none, none⟩⟩] =
    ⟨[⟨0, 0, [⟨"a", PStatus.FAIL, 1, none, 0⟩], some 999, none⟩], 1, 0, 1⟩ := by
  decide

/-- C10 (amended): the counts of a bulk batch.  `total` is the number of
participations; `synced` counts exactly the entries with a linked
account, a successful fetch and a raised hasChanges flag (which may be a
value-identical FAIL re-derivation); `errors` counts exactly the linked
entries whose fetch failed; unlinked or unchanged entries increment
neither, so synced + errors never exceeds total; and the stored
participation keeps its old value — in particular its `last_sync` —
unless the entry was counted as synced, in which case `last_sync` is
stamped with the batch time. -/
theorem bulk_batch_counts (startT endT : Nat) (problems : List ContestProblem)
    (now : Nat) (entries : List BulkEntry) :
    (bulkBatch startT endT problems now entries).total = entries.length ∧
    (bulkBatch startT endT problems now entries).synced =
      (entries.filter (entrySynced startT endT problems)).length ∧
    (bulkBatch startT endT problems now entries).errors =
      (entries.filter entryErrored).length ∧
    (bulkBatch startT endT problems now entries).synced +
      (bulkBatch startT endT problems now entries).errors ≤ entries.length ∧
    (bulkBatch startT endT problems now entries).participations =
      entries.map (entryResult startT endT problems now) ∧
    (∀ entry : BulkEntry, entrySynced startT endT problems entry = true →
      (entryResult startT endT problems now entry).last_sync = some now) ∧
    (∀ entry : BulkEntry, entrySynced startT endT problems entry = false →
      entryResult startT endT problems now entry = entry.participation) := by
  rw [bulkBatch_eq]
  refine ⟨rfl, rfl, rfl, ?_, rfl, ?_, ?_⟩
  · exact filter_pair_disjoint_length_le _ _
      (fun entry ⟨hs, he⟩ => by
        simp only [entrySynced, Bool.and_eq_true] at hs
        simp only [entryErrored, Bool.and_eq_true] at he
        cases hf : entry.fetch with
        | ok subs => rw [hf] at he; exact Bool.noConfusion he.2
        | error u => rw [hf] at hs; exact Bool.noConfusion hs.2) entries
  · intro entry hs
    simp only [entrySynced, Bool.and_eq_true] at hs
    obtain ⟨hl, hrest⟩ := hs
    cases hf : entry.fetch with
    | error u => rw [hf] at hrest; exact Bool.noConfusion hrest
    | ok subs =>
      rw [hf] at hrest
      have hc : (syncParticipantBulk startT endT problems subs
          entry.participation).2 = true := hrest
      simp [entryResult, hl, hf, hc]
  · intro entry hs
    by_cases hl : entry.linked
    · cases hf : entry.fetch with
      | error u => simp [entryResult, hl, hf]
      | ok subs =>
        have hc : (syncParticipantBulk startT endT problems subs
            entry.participation).2 = false := by
          simpa [entrySynced, hl, hf] using hs
        simp [entryResult, hl, hf, hc,
          syncParticipantBulk_of_not_changed hc]
    · have hl2 : entry.linked = false := by simpa using hl
      simp [entryResult, hl2]

/-- Witness for C10 (amended): a three-entry batch — one unlinked, one
with a failed fetch, one with a feed that newly accepts its problem —
yields total 3, synced 1, errors 1, leaves the first two participations
untouched and stamps `last_sync` only on the third. -/
theorem bulk_batch_counts_witness :
    (bulkBatch 100 200 [⟨"b", some "Hard"⟩] 555
      [⟨false, Except.ok [], ⟨0, 0, [⟨"b", PStatus.PENDING, 0, none, 0⟩], none, none⟩⟩,
       ⟨true, Except.error (), ⟨0, 0, [⟨"b", PStatus.PENDING, 0, none, 0⟩], none, none⟩⟩,
       ⟨true, Except.ok [⟨"b", 150, "Accepted"⟩],
         ⟨0, 0, [⟨"b", PStatus.PENDING, 0, none, 0⟩], none, none⟩⟩]).total = 3 ∧
    (bulkBatch 100 200 [⟨"b", some "Hard"⟩] 555
      [⟨false, Except.ok [], ⟨0, 0, [⟨"b", PStatus.PENDING, 0, none, 0⟩], none, none⟩⟩,
       ⟨true, Except.error (), ⟨0, 0, [⟨"b", PStatus.PENDING, 0, none, 0⟩], none, none⟩⟩,
       ⟨true, Except.ok [⟨"b", 150, "Accepted"⟩],
         ⟨0, 0, [⟨"b", PStatus.PENDING, 0, none, 0⟩], none, none⟩⟩]).synced = 1 ∧
    (bulkBatch 100 200 [⟨"b", some "Hard"⟩] 555
      [⟨false, Except.ok [], ⟨0, 0, [⟨"b", PStatus.PENDING, 0, none, 0⟩], none, none⟩⟩,
       ⟨true, Except.error (), ⟨0, 0, [⟨"b", PStatus.PENDING, 0, none, 0⟩], none, none⟩⟩,
       ⟨true, Except.ok [⟨"b", 150, "Accepted"⟩],
         ⟨0, 0, [⟨"b", PStatus.PENDING, 0, none, 0⟩], none, none⟩⟩]).errors = 1 := by
  have h := bulk_batch_counts 100 200 [⟨"b", some "Hard"⟩] 555
    [⟨false, Except.ok [], ⟨0, 0, [⟨"b", PStatus.PENDING, 0, none, 0⟩], none, none⟩⟩,
     ⟨true, Except.error (), ⟨0, 0, [⟨"b", PStatus.PENDING, 0, none, 0⟩], none, none⟩⟩,
     ⟨true, Except.ok [⟨"b", 150, "Accepted"⟩],
       ⟨0, 0, [⟨"b", PStatus.PENDING, 0, none, 0⟩], none, none⟩⟩]
  refine ⟨h.1, ?_, ?_⟩
  · rw [h.2.1]; decide
  · rw [h.2.2.1]; decide

/-! ### Retry with backoff -/

theorem retryAux_length {α : Type} (attempts : Nat → Except UpstreamError α)
    (rand : Nat → ℚ) (baseDelay : ℚ) :
    ∀ (fuel attempt : Nat),
      (retryAux attempts rand baseDelay attempt fuel).2.length ≤ fuel - 1
  | 0, attempt => by simp [retryAux]
  | 1, attempt => by simp [retryAux]
  | fuel + 2, attempt => by
    unfold retryAux
    cases hA : attempts attempt with
    | ok a => simp
    | error e =>
      by_cases hr : isRetryable e
      · simp only [hr, if_true, List.length_cons]
        have h := retryAux_length attempts rand baseDelay (fuel + 1) (attempt + 1)
        omega
      · simp [hr]

theorem retryAux_delay_val {α : Type} (attempts : Nat → Except UpstreamError α)
    (rand : Nat → ℚ) (baseDelay : ℚ) :
    ∀ (fuel attempt k : Nat) (d : ℚ),
      (retryAux attempts rand baseDelay attempt fuel).2[k]? = some d →
      d = jitterDelay baseDelay rand (attempt + k)
  | 0, attempt, k, d => by simp [retryAux]
  | 1, attempt, k, d => by simp [retryAux]
  | fuel + 2, attempt, k, d => by
    unfold retryAux
    cases hA : attempts attempt with
    | ok a => simp
    | error e =>
      by_cases hr : isRetryable e
      · simp only [hr, if_true]
        match k with
        | 0 =>
          intro h
          rw [List.getElem?_cons_zero] at h
          cases h
          simp
        | Nat.succ j =>
          intro h
          rw [List.getElem?_cons_succ] at h
          have := retryAux_delay_val attempts rand baseDelay (fuel + 1)
            (attempt + 1) j d h
          rw [this]
          congr 1
          omega
      · simp [hr]

theorem retryAux_nonretryable {α : Type} (attempts : Nat → Except UpstreamError α)
    (rand : Nat → ℚ) (baseDelay : ℚ) :
    ∀ (j fuel attempt : Nat) (e : UpstreamError), j < fuel →
      (∀ i, i < j → ∃ ei, attempts (attempt + i) = Except.error ei ∧
        isRetryable ei = true) →
      attempts (attempt + j) = Except.error e → isRetryable e = false →
      (retryAux attempts rand baseDelay attempt fuel).1 = Except.error e ∧
      (retryAux attempts rand baseDelay attempt fuel).2.length = j := by
  intro j
  induction j with
  | zero =>
    intro fuel attempt e hlt hpre hj hnr
    rw [Nat.add_zero] at hj
    match fuel, hlt with
    | 1, _ => simp [retryAux, hj]
    | fuel + 2, _ =>
      unfold retryAux
      rw [hj]
      simp [hnr]
  | succ j ih =>
    intro fuel attempt e hlt hpre hj hnr
    match fuel, hlt with
    | fuel + 2, _ =>
      obtain ⟨e0, he0, hr0⟩ := hpre 0 (Nat.succ_pos j)
      rw [Nat.add_zero] at he0
      unfold retryAux
      rw [he0]
      simp only [hr0, if_true]
      have hpre2 : ∀ i, i < j → ∃ ei, attempts (attempt + 1 + i) = Except.error ei ∧
          isRetryable ei = true := by
        intro i hi
        obtain ⟨ei, hei, hri⟩ := hpre (i + 1) (Nat.succ_lt_succ hi)
        refine ⟨ei, ?_, hri⟩
        rw [← hei]
        congr 1
        omega
      have hj2 : attempts (attempt + 1 + j) = Except.error e := by
        rw [← hj]
        congr 1
        omega
      have h := ih (fuel + 1) (attempt + 1) e (by omega) hpre2 hj2 hnr
      refine ⟨h.1, ?_⟩
      simp only [List.length_cons, h.2]

theorem retryAux_exhaust {α : Type} (attempts : Nat → Except UpstreamError α)
    (rand : Nat → ℚ) (baseDelay : ℚ) :
    ∀ (fuel attempt : Nat), 1 ≤ fuel →
      (∀ i, i < fuel → ∃ ei, attempts (attempt + i) = Except.error ei ∧
        isRetryable ei = true) →
      (retryAux attempts rand baseDelay attempt fuel).1 =
        attempts (attempt + (fuel - 1)) ∧
      (retryAux attempts rand baseDelay attempt fuel).2.length = fuel - 1
  | 0, attempt => by
    intro h _
    exact absurd h (by omega)
  | 1, attempt => by
    intro _ _
    simp [retryAux]
  | fuel + 2, attempt => by
    intro _ hpre
    obtain ⟨e0, he0, hr0⟩ := hpre 0 (by omega)
    rw [Nat.add_zero] at he0
    unfold retryAux
    rw [he0]
    simp only [hr0, if_true]
    have hpre2 : ∀ i, i < fuel + 1 → ∃ ei, attempts (attempt + 1 + i) = Except.error ei ∧
        isRetryable ei = true := by
      intro i hi
      obtain ⟨ei, hei, hri⟩ := hpre (i + 1) (by omega)
      refine ⟨ei, ?_, hri⟩
      rw [← hei]
      congr 1
      omega
    have h := retryAux_exhaust attempts rand baseDelay (fuel + 1) (attempt + 1)
      (by omega) hpre2
    constructor
    · rw [h.1]
      congr 1
      omega
    · simp only [List.length_cons, h.2]
      omega

/-- C9: the retry policy of the submission fetcher.  At most 5 attempts
are ever made (so at most 4 delays are slept); the delay slept before
retry k+1 is exactly 2000ms * 2 ^ k scaled by the jitter factor
0.75 + rand/2, which lies in [0.75, 1.25] of the base; a non-transient
failure (anything but HTTP 504/429/503 or a timeout code) is raised
immediately with no further attempt; transient exhaustion surfaces the
final attempt's error after exactly 5 calls; and every failure reaches
the getRecentSubmissions caller as the single fetch-failed error, never
as partial data. -/
theorem retry_backoff_spec (attempts : Nat → Except UpstreamError LCResponse)
    (rand : Nat → ℚ) :
    (retryWithBackoff attempts rand).2.length ≤ 4 ∧
    (∀ (k : Nat) (d : ℚ), (retryWithBackoff attempts rand).2[k]? = some d →
      d = 2000 * 2 ^ k * (3 / 4 + rand k * (1 / 2)) ∧
      (0 ≤ rand k → rand k ≤ 1 →
        2000 * 2 ^ k * (3 / 4) ≤ d ∧ d ≤ 2000 * 2 ^ k * (5 / 4))) ∧
    (∀ (j : Nat) (e : UpstreamError), j < 5 →
      (∀ i, i < j → ∃ ei, attempts i = Except.error ei ∧ isRetryable ei = true) →
      attempts j = Except.error e → isRetryable e = false →
      (retryWithBackoff attempts rand).1 = Except.error e ∧
      (retryWithBackoff attempts rand).2.length = j) ∧
    ((∀ i, i < 5 → ∃ ei, attempts i = Except.error ei ∧ isRetryable ei = true) →
      (retryWithBackoff attempts rand).1 = attempts 4 ∧
      (retryWithBackoff attempts rand).2.length = 4) ∧
    (∀ e, (retryWithBackoff attempts rand).1 = Except.error e →
      getRecentSubmissions attempts rand =
        Except.error "Failed to fetch submissions") := by
  refine ⟨?_, ?_, ?_, ?_, ?_⟩
  · exact retryAux_length attempts rand 2000 5 0
  · intro k d h
    have hval := retryAux_delay_val attempts rand 2000 5 0 k d h
    rw [Nat.zero_add] at hval
    unfold jitterDelay at hval
    refine ⟨hval, fun h0 h1 => ?_⟩
    have hbase : (0 : ℚ) ≤ 2000 * 2 ^ k := by positivity
    constructor
    · rw [hval]
      apply mul_le_mul_of_nonneg_left _ hbase
      nlinarith
    · rw [hval]
      apply mul_le_mul_of_nonneg_left _ hbase
      nlinarith
  · intro j e hj hpre hje hnr
    have h := retryAux_nonretryable attempts rand 2000 j 5 0 e hj
      (by simpa using hpre) (by simpa using hje) hnr
    exact h
  · intro hpre
    have h := retryAux_exhaust attempts rand 2000 5 0 (by omega)
      (by simpa using hpre)
    simpa using h
  · intro e he
    unfold getRecentSubmissions
    rw [show (retryWithBackoff attempts rand).1 = Except.error e from he]

/-- Witness for C9: with a rate-limited first attempt and a permanent
HTTP 400 second attempt, the loop stops after the second call: the 400
error is raised with exactly one backoff delay slept, and the caller
sees the single fetch-failed error. -/
theorem retry_backoff_spec_witness :
    (retryWithBackoff
      (fun i => if i = 0 then Except.error ⟨some 429, none⟩
        else (Except.error ⟨some 400, none⟩ : Except UpstreamError LCResponse))
      (fun _ => 1 / 2)).1 = Except.error ⟨some 400, none⟩ ∧
    (retryWithBackoff
      (fun i => if i = 0 then Except.error ⟨some 429, none⟩
        else (Except.error ⟨some 400, none⟩ : Except UpstreamError LCResponse))
      (fun _ => 1 / 2)).2.length = 1 ∧
    getRecentSubmissions
      (fun i => if i = 0 then Except.error ⟨some 429, none⟩
        else (Except.error ⟨some 400, none⟩ : Except UpstreamError LCResponse))
      (fun _ => 1 / 2) = Except.error "Failed to fetch submissions" := by
  have h := retry_backoff_spec
    (fun i => if i = 0 then Except.error ⟨some 429, none⟩
      else (Except.error ⟨some 400, none⟩ : Except UpstreamError LCResponse))
    (fun _ => 1 / 2)
  have h3 := h.2.2.1 1 ⟨some 400, none⟩ (by omega)
    (fun i hi => by
      match i, hi with
      | 0, _ => exact ⟨⟨some 429, none⟩, rfl, rfl⟩)
    rfl rfl
  exact ⟨h3.1, h3.2, h.2.2.2.2 ⟨some 400, none⟩ h3.1⟩

/-! ### Rank recomputation -/

theorem assignRanks_length :
    ∀ (l : List Participation) (m : Nat), (assignRanks m l).length = l.length := by
  intro l
  induction l with
  | nil => intro m; rfl
  | cons p rest ih => intro m; simp [assignRanks, ih]

theorem assignRanks_getElem? :
    ∀ (l : List Participation) (m k : Nat),
      (assignRanks m l)[k]? =
        l[k]?.map (fun p => { p with rank := some (m + k + 1) }) := by
  intro l
  induction l with
  | nil => intro m k; simp [assignRanks]
  | cons p rest ih =>
    intro m k
    match k with
    | 0 => simp [assignRanks]
    | Nat.succ j =>
      simp only [assignRanks, List.getElem?_cons_succ]
      rw [ih (m + 1) j]
      have harith : m + 1 + j + 1 = m + (j + 1) + 1 := by omega
      rw [harith]

theorem assignRanks_getElem (l : List Participation) (m i : Nat)
    (h : i < (assignRanks m l).length) (h2 : i < l.length) :
    (assignRanks m l)[i] = { l[i] with rank := some (m + i + 1) } := by
  have hq := assignRanks_getElem? l m i
  rw [List.getElem?_eq_getElem h, List.getElem?_eq_getElem h2] at hq
  simpa using hq

theorem assignRanks_map_stripRank :
    ∀ (l : List Participation) (m : Nat),
      (assignRanks m l).map stripRank = l.map stripRank := by
  intro l
  induction l with
  | nil => intro m; rfl
  | cons p rest ih =>
    intro m
    simp only [assignRanks, List.map_cons, ih]
    rfl

theorem mem_rankWrites :
    ∀ (l : List Participation) (m : Nat) (w : Participation),
      w ∈ rankWrites m l ↔
        ∃ k a, l[k]? = some a ∧ a.rank ≠ some (m + k + 1) ∧
          w = { a with rank := some (m + k + 1) } := by
  intro l
  induction l with
  | nil =>
    intro m w
    simp [rankWrites]
  | cons p rest ih =>
    intro m w
    unfold rankWrites
    by_cases hp : p.rank == some (m + 1)
    · have hpe : p.rank = some (m + 1) := eq_of_beq hp
      simp only [hp, if_true]
      rw [ih (m + 1)]
      constructor
      · rintro ⟨k, a, hk, hne, hw⟩
        refine ⟨k + 1, a, by simpa using hk, ?_, ?_⟩
        · have : m + (k + 1) + 1 = m + 1 + k + 1 := by omega
          rw [this]
          exact hne
        · have : m + (k + 1) + 1 = m + 1 + k + 1 := by omega
          rw [this]
          exact hw
      · rintro ⟨k, a, hk, hne, hw⟩
        match k with
        | 0 =>
          rw [List.getElem?_cons_zero] at hk
          cases hk
          exact absurd hpe (by simpa using hne)
        | Nat.succ j =>
          rw [List.getElem?_cons_succ] at hk
          refine ⟨j, a, hk, ?_, ?_⟩
          · have : m + 1 + j + 1 = m + (j + 1) + 1 := by omega
            rw [this]
            exact hne
          · have : m + 1 + j + 1 = m + (j + 1) + 1 := by omega
            rw [this]
            exact hw
    · have hpe : p.rank ≠ some (m + 1) := by
        intro hc
        exact hp (by simp [hc])
      simp only [hp, Bool.false_eq_true, if_false, List.mem_cons]
      rw [ih (m + 1)]
      constructor
      · rintro (hw | ⟨k, a, hk, hne, hw⟩)
        · exact ⟨0, p, List.getElem?_cons_zero, by simpa using hpe, by simpa using hw⟩
        · refine ⟨k + 1, a, by simpa using hk, ?_, ?_⟩
          · have : m + (k + 1) + 1 = m + 1 + k + 1 := by omega
            rw [this]
            exact hne
          · have : m + (k + 1) + 1 = m + 1 + k + 1 := by omega
            rw [this]
            exact hw
      · rintro ⟨k, a, hk, hne, hw⟩
        match k with
        | 0 =>
          rw [List.getElem?_cons_zero] at hk
          cases hk
          exact Or.inl (by simpa using hw)
        | Nat.succ j =>
          rw [List.getElem?_cons_succ] at hk
          refine Or.inr ⟨j, a, hk, ?_, ?_⟩
          · have : m + 1 + j + 1 = m + (j + 1) + 1 := by omega
            rw [this]
            exact hne
          · have : m + 1 + j + 1 = m + (j + 1) + 1 := by omega
            rw [this]
            exact hw

theorem recomputeRanks_fst (participations : List Participation) :
    (recomputeRanks participations).1 =
      assignRanks 0 (rankSorted participations) := rfl

theorem rankSorted_length (participations : List Participation) :
    (rankSorted participations).length = participations.length :=
  (List.perm_insertionSort rankBefore participations).length_eq

/-- C8: after a rank recomputation the stored ranks are the dense
sequence 1..N, in an order sorted by score descending with ties broken
by total_penalty ascending; for two entries of equal score, the one with
strictly lower total_penalty carries a strictly smaller rank; the ranked
list is a permutation of the input up to the rank field; and the set of
written entries is exactly those whose stored rank differed from the
computed 1-based position. -/
theorem recompute_ranks_spec (participations : List Participation) :
    ((recomputeRanks participations).1.map fun p => p.rank) =
      (List.range participations.length).map (fun k => some (k + 1)) ∧
    (recomputeRanks participations).1.Pairwise rankBefore ∧
    (∀ (i j : Nat) (a b : Participation),
      (recomputeRanks participations).1[i]? = some a →
      (recomputeRanks participations).1[j]? = some b →
      a.score = b.score → a.total_penalty < b.total_penalty →
      ∃ ra rb, a.rank = some ra ∧ b.rank = some rb ∧ ra < rb) ∧
    ((recomputeRanks participations).1.map stripRank).Perm
      (participations.map stripRank) ∧
    (∀ w, w ∈ (recomputeRanks participations).2 ↔
      ∃ k a, (rankSorted participations)[k]? = some a ∧
        a.rank ≠ some (k + 1) ∧ w = { a with rank := some (k + 1) }) := by
  have hlen := rankSorted_length participations
  have hsort : (rankSorted participations).Pairwise rankBefore :=
    List.sorted_insertionSort rankBefore participations
  refine ⟨?_, ?_, ?_, ?_, ?_⟩
  · apply List.ext_getElem?
    intro k
    rw [recomputeRanks_fst, List.getElem?_map, List.getElem?_map,
      assignRanks_getElem?]
    by_cases hk : k < participations.length
    · have hk2 : k < (rankSorted participations).length := by rw [hlen]; exact hk
      rw [List.getElem?_eq_getElem hk2, List.getElem?_range hk]
      simp
    · have hk2 : (rankSorted participations).length ≤ k := by omega
      have hk3 : (List.range participations.length).length ≤ k := by
        simpa using Nat.le_of_not_lt hk
      rw [List.getElem?_eq_none hk2, List.getElem?_eq_none hk3]
      rfl
  · rw [recomputeRanks_fst, List.pairwise_iff_getElem]
    intro i j hi hj hij
    have hi2 : i < (rankSorted participations).length := by
      rw [← assignRanks_length (rankSorted participations) 0]
      exact hi
    have hj2 : j < (rankSorted participations).length := by
      rw [← assignRanks_length (rankSorted participations) 0]
      exact hj
    rw [assignRanks_getElem _ 0 i hi hi2, assignRanks_getElem _ 0 j hj hj2]
    exact (List.pairwise_iff_getElem.mp hsort) i j hi2 hj2 hij
  · intro i j a b hia hjb hs hp
    rw [recomputeRanks_fst, assignRanks_getElem?] at hia hjb
    cases hsi : (rankSorted participations)[i]? with
    | none => rw [hsi] at hia; exact absurd hia (by simp)
    | some ai =>
      cases hsj : (rankSorted participations)[j]? with
      | none => rw [hsj] at hjb; exact absurd hjb (by simp)
      | some aj =>
        rw [hsi] at hia
        rw [hsj] at hjb
        have hia2 : ({ ai with rank := some (0 + i + 1) } : Participation) = a :=
          Option.some.inj hia
        have hjb2 : ({ aj with rank := some (0 + j + 1) } : Participation) = b :=
          Option.some.inj hjb
        have hsa : ai.score = a.score := by rw [← hia2]
        have hsb : aj.score = b.score := by rw [← hjb2]
        have hpa : ai.total_penalty = a.total_penalty := by rw [← hia2]
        have hpb : aj.total_penalty = b.total_penalty := by rw [← hjb2]
        have hra : a.rank = some (0 + i + 1) := by rw [← hia2]
        have hrb : b.rank = some (0 + j + 1) := by rw [← hjb2]
        have hilt : i < (rankSorted participations).length :=
          (List.getElem?_eq_some.mp hsi).1
        have hjlt : j < (rankSorted participations).length :=
          (List.getElem?_eq_some.mp hsj).1
        have hij : i < j := by
          rcases Nat.lt_trichotomy i j with h | h | h
          · exact h
          · exfalso
            subst h
            rw [hsi] at hsj
            have heq : ai.total_penalty = aj.total_penalty := by
              rw [Option.some.inj hsj]
            omega
          · exfalso
            have hrel := (List.pairwise_iff_getElem.mp hsort) j i hjlt hilt h
            have hsje : (rankSorted participations)[j] = aj :=
              (List.getElem?_eq_some.mp hsj).2
            have hsie : (rankSorted participations)[i] = ai :=
              (List.getElem?_eq_some.mp hsi).2
            rw [hsje, hsie] at hrel
            unfold rankBefore at hrel
            rcases hrel with hlt | ⟨heq, hle⟩
            · omega
            · omega
        exact ⟨0 + i + 1, 0 + j + 1, hra, hrb, by omega⟩
  · rw [recomputeRanks_fst, assignRanks_map_stripRank]
    exact (List.perm_insertionSort rankBefore participations).map stripRank
  · intro w
    have h := mem_rankWrites (rankSorted participations) 0 w
    simpa using h

/-- Witness for C8: three participants with scores 3, 4, 3 and penalties
10, 0, 5 receive ranks 1 (score 4), 2 (score 3, penalty 5) and
3 (score 3, penalty 10): on the score tie the lower penalty wins the
strictly smaller rank. -/
theorem recompute_ranks_spec_witness :
    (recomputeRanks [⟨3, 10, [], none, some 1⟩, ⟨4, 0, [], none, none⟩,
        ⟨3, 5, [], none, some 3⟩]).1[1]? = some ⟨3, 5, [], none, some 2⟩ ∧
    (recomputeRanks [⟨3, 10, [], none, some 1⟩, ⟨4, 0, [], none, none⟩,
        ⟨3, 5, [], none, some 3⟩]).1[2]? = some ⟨3, 10, [], none, some 3⟩ ∧
    (3 : Nat) = 3 ∧ (5 : Nat) < 10 ∧
    (∃ ra rb, (some 2 : Option Nat) = some ra ∧
      (some 3 : Option Nat) = some rb ∧ ra < rb) := by
  refine ⟨by decide, by decide, rfl, by decide, ?_⟩
  exact (recompute_ranks_spec [⟨3, 10, [], none, some 1⟩, ⟨4, 0, [], none, none⟩,
      ⟨3, 5, [], none, some 3⟩]).2.2.1 1 2
    ⟨3, 5, [], none, some 2⟩ ⟨3, 10, [], none, some 3⟩
    (by decide) (by decide) rfl (by decide)

/-! ### The per-problem acceptance scan -/

theorem exists_first_accepted :
    ∀ {L : List Submission}, (∃ e ∈ L, e.statusDisplay = "Accepted") →
      ∃ l1 a l2, L = l1 ++ a :: l2 ∧ a.statusDisplay = "Accepted" ∧
        ∀ e ∈ l1, e.statusDisplay ≠ "Accepted" := by
  intro L
  induction L with
  | nil => intro h; simp at h
  | cons x rest ih =>
    intro h
    by_cases hx : x.statusDisplay = "Accepted"
    · exact ⟨[], x, rest, rfl, hx, by simp⟩
    · obtain ⟨e, he, hacc⟩ := h
      have hrest : ∃ e ∈ rest, e.statusDisplay = "Accepted" := by
        cases List.mem_cons.mp he with
        | inl h2 => exact absurd (h2 ▸ hacc) hx
        | inr h2 => exact ⟨e, h2, hacc⟩
      obtain ⟨l1, a, l2, hL, ha, hl1⟩ := ih hrest
      refine ⟨x :: l1, a, l2, by rw [hL]; rfl, ha, ?_⟩
      intro e he2
      cases List.mem_cons.mp he2 with
      | inl h2 => rw [h2]; exact hx
      | inr h2 => exact hl1 e h2

theorem scanSubmissions_split (l1 : List Submission) (a : Submission)
    (l2 : List Submission) (ha : a.statusDisplay = "Accepted")
    (hl1 : ∀ e ∈ l1, e.statusDisplay ≠ "Accepted") :
    scanSubmissions (l1 ++ a :: l2) = (l1.length, some a.timestamp) := by
  induction l1 with
  | nil => simp [scanSubmissions, ha]
  | cons x rest ih =>
    have hx : (x.statusDisplay == "Accepted") = false := by
      simpa using hl1 x (List.mem_cons_self x rest)
    have ih2 := ih (fun e he => hl1 e (List.mem_cons_of_mem x he))
    simp [scanSubmissions, hx, ih2]

theorem first_accepted_count {F l1 : List Submission} {a : Submission}
    {l2 : List Submission} (hsplit : F = l1 ++ a :: l2)
    (ha : a.statusDisplay = "Accepted")
    (hl1 : ∀ e ∈ l1, e.statusDisplay ≠ "Accepted")
    (hsorted : F.Pairwise tsLE)
    (hnotie : F.Pairwise (fun x y => x.timestamp ≠ y.timestamp)) :
    (F.filter (fun e => !(e.statusDisplay == "Accepted") &&
      decide (e.timestamp < a.timestamp))).length = l1.length ∧
    (∀ e ∈ F, e.statusDisplay = "Accepted" → a.timestamp ≤ e.timestamp) := by
  subst hsplit
  rw [List.pairwise_append] at hsorted hnotie
  obtain ⟨hs1, hs2, hs12⟩ := hsorted
  obtain ⟨hn1, hn2, hn12⟩ := hnotie
  have hale : ∀ e ∈ l2, a.timestamp ≤ e.timestamp := by
    intro e he
    exact (List.pairwise_cons.mp hs2).1 e he
  constructor
  · rw [List.filter_append]
    have h1 : l1.filter (fun e => !(e.statusDisplay == "Accepted") &&
        decide (e.timestamp < a.timestamp)) = l1 := by
      rw [List.filter_eq_self]
      intro e he
      have hne : e.statusDisplay ≠ "Accepted" := hl1 e he
      have hle : e.timestamp ≤ a.timestamp :=
        hs12 e he a (List.mem_cons_self a l2)
      have hne2 : e.timestamp ≠ a.timestamp :=
        hn12 e he a (List.mem_cons_self a l2)
      have hlt : e.timestamp < a.timestamp := by omega
      simp [hne, hlt]
    have h2 : (a :: l2).filter (fun e => !(e.statusDisplay == "Accepted") &&
        decide (e.timestamp < a.timestamp)) = [] := by
      rw [List.filter_eq_nil_iff]
      intro e he
      cases List.mem_cons.mp he with
      | inl h => rw [h]; simp [ha]
      | inr h =>
        have hge := hale e h
        simp only [Bool.and_eq_true, Bool.not_eq_true, decide_eq_true_eq,
          not_and]
        intro _
        omega
    rw [h1, h2]
    simp
  · intro e he hacc
    rcases List.mem_append.mp he with h | h
    · exact absurd hacc (hl1 e h)
    · cases List.mem_cons.mp h with
      | inl h2 => rw [h2]
      | inr h2 => exact hale e h2

/-- C3: when a contest problem is not yet ACCEPTED and the in-window
feed for its slug (filtered to [start, end] inclusive and sorted by
timestamp) contains an Accepted entry, the sync pass marks the problem
ACCEPTED with solved_at the earliest accepted timestamp, fail_count the
number of not-accepted in-window entries strictly before it (assuming
distinct timestamps), penalty = fail_count * 5 minutes, and — for a
fresh participation (score 0, where the score gate passes) — the
difficulty-based points and penalty are added to score and
total_penalty. -/
theorem accepted_scan_spec (startT endT : Nat) (subs : List Submission)
    (participation : Participation) (problem : ContestProblem)
    (pp : ProblemProgress)
    (hfind : participation.problem_progress.find? (slugMatch problem.slug) = some pp)
    (hnacc : pp.status ≠ PStatus.ACCEPTED)
    (hex : ∃ e ∈ problemSubmissionsFor problem.slug startT endT subs,
      e.statusDisplay = "Accepted")
    (hnotie : (problemSubmissionsFor problem.slug startT endT subs).Pairwise
      (fun x y => x.timestamp ≠ y.timestamp)) :
    ∃ tAcc fc,
      (∃ e ∈ problemSubmissionsFor problem.slug startT endT subs,
        e.statusDisplay = "Accepted" ∧ e.timestamp = tAcc) ∧
      (∀ e ∈ problemSubmissionsFor problem.slug startT endT subs,
        e.statusDisplay = "Accepted" → tAcc ≤ e.timestamp) ∧
      fc = ((problemSubmissionsFor problem.slug startT endT subs).filter
        (fun e => !(e.statusDisplay == "Accepted") &&
          decide (e.timestamp < tAcc))).length ∧
      (processProblemSingle startT endT subs participation
          problem).1.problem_progress.find? (slugMatch problem.slug) =
        some { pp with
                status := PStatus.ACCEPTED,
                solved_at := some tAcc,
                fail_count := fc,
                penalty := fc * 5 } ∧
      (participation.score = 0 →
        (processProblemSingle startT endT subs participation problem).1.score =
          participation.score +
            getScoreForDifficulty (problem.difficulty.getD "Medium") ∧
        (processProblemSingle startT endT subs participation problem).1.total_penalty =
          participation.total_penalty + fc * 5 ∧
        (processProblemSingle startT endT subs participation problem).2 = true) := by
  obtain ⟨l1, a, l2, hsplit, ha, hl1⟩ := exists_first_accepted hex
  have hsorted : (problemSubmissionsFor problem.slug startT endT subs).Pairwise tsLE :=
    List.sorted_insertionSort tsLE _
  obtain ⟨hcount, hmin⟩ := first_accepted_count hsplit ha hl1 hsorted hnotie
  have hscan : scanSubmissions (problemSubmissionsFor problem.slug startT endT subs) =
      (l1.length, some a.timestamp) := by
    rw [hsplit]
    exact scanSubmissions_split l1 a l2 ha hl1
  have hst2 : (pp.status == PStatus.ACCEPTED) = false := by simpa using hnacc
  refine ⟨a.timestamp, l1.length, ?_, hmin, hcount.symm, ?_, ?_⟩
  · refine ⟨a, ?_, ha, rfl⟩
    rw [hsplit]
    exact List.mem_append_right l1 (List.mem_cons_self a l2)
  · unfold processProblemSingle
    rw [hfind]
    simp only [hst2, Bool.false_eq_true, if_false, hscan]
    split
    · exact find?_updateFirstSlug hfind rfl
    · exact find?_updateFirstSlug hfind rfl
  · intro hscore
    unfold processProblemSingle
    rw [hfind]
    simp only [hst2, Bool.false_eq_true, if_false, hscan]
    have hgate : (participation.score == 0) = true := by simp [hscore]
    simp [hgate]

/-- Witness for C3, Scenario A: window [1000, 4600] (an hour), problem
two-sum (Easy, 3 points), fresh participation, feed with not-accepted
submissions at 1010 and 1020 and an accepted one at 1030.  The general
theorem applies, and the full pass yields status ACCEPTED, fail_count 2,
penalty 10, score 3 and total_penalty 10. -/
theorem accepted_scan_spec_witness :
    ((⟨0, 0, [⟨"two-sum", PStatus.PENDING, 0, none, 0⟩], none, none⟩ :
        Participation).problem_progress.find? (slugMatch "two-sum") =
      some ⟨"two-sum", PStatus.PENDING, 0, none, 0⟩) ∧
    (∃ tAcc fc,
      (∃ e ∈ problemSubmissionsFor "two-sum" 1000 4600
          [⟨"two-sum", 1010, "Wrong Answer"⟩, ⟨"two-sum", 1020, "Wrong Answer"⟩,
           ⟨"two-sum", 1030, "Accepted"⟩],
        e.statusDisplay = "Accepted" ∧ e.timestamp = tAcc) ∧
      (∀ e ∈ problemSubmissionsFor "two-sum" 1000 4600
          [⟨"two-sum", 1010, "Wrong Answer"⟩, ⟨"two-sum", 1020, "Wrong Answer"⟩,
           ⟨"two-sum", 1030, "Accepted"⟩],
        e.statusDisplay = "Accepted" → tAcc ≤ e.timestamp) ∧
      fc = ((problemSubmissionsFor "two-sum" 1000 4600
          [⟨"two-sum", 1010, "Wrong Answer"⟩, ⟨"two-sum", 1020, "Wrong Answer"⟩,
           ⟨"two-sum", 1030, "Accepted"⟩]).filter
        (fun e => !(e.statusDisplay == "Accepted") &&
          decide (e.timestamp < tAcc))).length ∧
      (processProblemSingle 1000 4600
          [⟨"two-sum", 1010, "Wrong Answer"⟩, ⟨"two-sum", 1020, "Wrong Answer"⟩,
           ⟨"two-sum", 1030, "Accepted"⟩]
          ⟨0, 0, [⟨"two-sum", PStatus.PENDING, 0, none, 0⟩], none, none⟩
          ⟨"two-sum", some "Easy"⟩).1.problem_progress.find? (slugMatch "two-sum") =
        some { (⟨"two-sum", PStatus.PENDING, 0, none, 0⟩ : ProblemProgress) with
                status := PStatus.ACCEPTED,
                solved_at := some tAcc,
                fail_count := fc,
                penalty := fc * 5 } ∧
      ((⟨0, 0, [⟨"two-sum", PStatus.PENDING, 0, none, 0⟩], none, none⟩ :
          Participation).score = 0 →
        (processProblemSingle 1000 4600
          [⟨"two-sum", 1010, "Wrong Answer"⟩, ⟨"two-sum", 1020, "Wrong Answer"⟩,
           ⟨"two-sum", 1030, "Accepted"⟩]
          ⟨0, 0, [⟨"two-sum", PStatus.PENDING, 0, none, 0⟩], none, none⟩
          ⟨"two-sum", some "Easy"⟩).1.score =
          (⟨0, 0, [⟨"two-sum", PStatus.PENDING, 0, none, 0⟩], none, none⟩ :
            Participation).score +
            getScoreForDifficulty ((some "Easy").getD "Medium") ∧
        (processProblemSingle 1000 4600
          [⟨"two-sum", 1010, "Wrong Answer"⟩, ⟨"two-sum", 1020, "Wrong Answer"⟩,
           ⟨"two-sum", 1030, "Accepted"⟩]
          ⟨0, 0, [⟨"two-sum", PStatus.PENDING, 0, none, 0⟩], none, none⟩
          ⟨"two-sum", some "Easy"⟩).1.total_penalty =
          (⟨0, 0, [⟨"two-sum", PStatus.PENDING, 0, none, 0⟩], none, none⟩ :
            Participation).total_penalty + fc * 5 ∧
        (processProblemSingle 1000 4600
          [⟨"two-sum", 1010, "Wrong Answer"⟩, ⟨"two-sum", 1020, "Wrong Answer"⟩,
           ⟨"two-sum", 1030, "Accepted"⟩]
          ⟨0, 0, [⟨"two-sum", PStatus.PENDING, 0, none, 0⟩], none, none⟩
          ⟨"two-sum", some "Easy"⟩).2 = true)) ∧
    syncPassSingle ⟨[⟨"two-sum", some "Easy"⟩], 1000, 4600, false, none⟩
        ⟨0, 0, [⟨"two-sum", PStatus.PENDING, 0, none, 0⟩], none, none⟩
        [⟨"two-sum", 1010, "Wrong Answer"⟩, ⟨"two-sum", 1020, "Wrong Answer"⟩,
         ⟨"two-sum", 1030, "Accepted"⟩] =
      (⟨3, 10, [⟨"two-sum", PStatus.ACCEPTED, 2, some 1030, 10⟩], none, none⟩,
        true) := by
  refine ⟨by decide, ?_, by decide⟩
  exact accepted_scan_spec 1000 4600
    [⟨"two-sum", 1010, "Wrong Answer"⟩, ⟨"two-sum", 1020, "Wrong Answer"⟩,
     ⟨"two-sum", 1030, "Accepted"⟩]
    ⟨0, 0, [⟨"two-sum", PStatus.PENDING, 0, none, 0⟩], none, none⟩
    ⟨"two-sum", some "Easy"⟩ ⟨"two-sum", PStatus.PENDING, 0, none, 0⟩
    (by decide) (by decide) (by decide) (by decide)

/-! ### Idempotence of the sync pass -/

theorem processProblemSingle_of_stable {startT endT : Nat} {subs : List Submission}
    {participation : Participation} {problem : ContestProblem}
    (h : entryStable startT endT subs problem.slug participation.problem_progress) :
    processProblemSingle startT endT subs participation problem =
      (participation, false) := by
  unfold processProblemSingle
  cases hfind : participation.problem_progress.find? (slugMatch problem.slug) with
  | none => rfl
  | some pp =>
    rcases h pp hfind with hacc | ⟨hnone, hrest⟩
    · simp [hacc]
    · by_cases hst : pp.status == PStatus.ACCEPTED
      · simp [hst]
      · have hst2 : (pp.status == PStatus.ACCEPTED) = false := by simpa using hst
        simp only [hst2, Bool.false_eq_true, if_false, hnone]
        rcases hrest with hzero | hfix
        · simp [hzero]
        · split
          · rw [updateFirstSlug_id hfind hfix]
          · rfl

theorem entryStable_after_process (startT endT : Nat) (subs : List Submission)
    (participation : Participation) (problem : ContestProblem) :
    entryStable startT endT subs problem.slug
      (processProblemSingle startT endT subs participation
        problem).1.problem_progress := by
  unfold processProblemSingle
  cases hfind : participation.problem_progress.find? (slugMatch problem.slug) with
  | none =>
    intro pp hpp
    rw [hfind] at hpp
    exact absurd hpp (by simp)
  | some q =>
    by_cases hst : q.status == PStatus.ACCEPTED
    · intro pp hpp
      simp only [hst, if_true] at hpp
      rw [hfind] at hpp
      cases hpp
      exact Or.inl (by simpa using hst)
    · have hst2 : (q.status == PStatus.ACCEPTED) = false := by simpa using hst
      cases hscan : (scanSubmissions (problemSubmissionsFor problem.slug startT endT subs)).2 with
      | some ts =>
        simp only [hst2, Bool.false_eq_true, if_false, hscan]
        split
        · intro pp hpp
          rw [find?_updateFirstSlug hfind rfl] at hpp
          cases hpp
          exact Or.inl rfl
        · intro pp hpp
          rw [find?_updateFirstSlug hfind rfl] at hpp
          cases hpp
          exact Or.inl rfl
      | none =>
        simp only [hst2, Bool.false_eq_true, if_false, hscan]
        split
        · intro pp hpp
          rw [find?_updateFirstSlug hfind rfl] at hpp
          cases hpp
          exact Or.inr ⟨hscan, Or.inr rfl⟩
        · intro pp hpp
          rw [hfind] at hpp
          cases hpp
          refine Or.inr ⟨hscan, Or.inl ?_⟩
          omega

theorem processProblemSingle_find?_ne {startT endT : Nat} {subs : List Submission}
    {participation : Participation} {problem : ContestProblem} {s : String}
    (hne : s ≠ problem.slug) :
    (processProblemSingle startT endT subs participation
        problem).1.problem_progress.find? (slugMatch s) =
      participation.problem_progress.find? (slugMatch s) := by
  unfold processProblemSingle
  cases hfind : participation.problem_progress.find? (slugMatch problem.slug) with
  | none => rfl
  | some q =>
    by_cases hst : q.status == PStatus.ACCEPTED
    · simp [hst]
    · have hst2 : (q.status == PStatus.ACCEPTED) = false := by simpa using hst
      cases hscan : (scanSubmissions (problemSubmissionsFor problem.slug startT endT subs)).2 with
      | some ts =>
        simp only [hst2, Bool.false_eq_true, if_false, hscan]
        split
        · dsimp only
          refine find?_updateFirstSlug_ne hne ?_ participation.problem_progress
          intro p
          rfl
        · dsimp only
          refine find?_updateFirstSlug_ne hne ?_ participation.problem_progress
          intro p
          rfl
      | none =>
        simp only [hst2, Bool.false_eq_true, if_false, hscan]
        split
        · dsimp only
          refine find?_updateFirstSlug_ne hne ?_ participation.problem_progress
          intro p
          rfl
        · rfl

theorem entryStable_preserved {startT endT : Nat} {subs : List Submission}
    {s : String} {participation : Participation} (problem : ContestProblem)
    (h : entryStable startT endT subs s participation.problem_progress) :
    entryStable startT endT subs s
      (processProblemSingle startT endT subs participation
        problem).1.problem_progress := by
  by_cases heq : problem.slug = s
  · rw [← heq]
    rw [← heq] at h
    exact entryStable_after_process startT endT subs participation problem
  · intro pp hpp
    rw [processProblemSingle_find?_ne (fun hc => heq hc.symm)] at hpp
    exact h pp hpp

theorem syncPassSingle_stable (contest : Contest) (participation : Participation)
    (subs : List Submission) :
    ∀ problem ∈ contest.problems,
      entryStable contest.start_time contest.end_time subs problem.slug
        (syncPassSingle contest participation subs).1.problem_progress := by
  unfold syncPassSingle
  suffices haux : ∀ (probs : List ContestProblem) (acc : Participation × Bool),
      (∀ s, entryStable contest.start_time contest.end_time subs s
          acc.1.problem_progress →
        entryStable contest.start_time contest.end_time subs s
          (probs.foldl (fun acc problem =>
            let r := processProblemSingle contest.start_time contest.end_time subs
              acc.1 problem
            (r.1, acc.2 || r.2)) acc).1.problem_progress) ∧
      (∀ problem ∈ probs,
        entryStable contest.start_time contest.end_time subs problem.slug
          (probs.foldl (fun acc problem =>
            let r := processProblemSingle contest.start_time contest.end_time subs
              acc.1 problem
            (r.1, acc.2 || r.2)) acc).1.problem_progress) by
    exact (haux contest.problems (participation, false)).2
  intro probs
  induction probs with
  | nil =>
    intro acc
    exact ⟨fun s hs => hs, fun problem hmem => absurd hmem (by simp)⟩
  | cons pb rest ih =>
    intro acc
    rw [List.foldl_cons]
    constructor
    · intro s hs
      exact (ih _).1 s (entryStable_preserved pb hs)
    · intro problem hmem
      cases List.mem_cons.mp hmem with
      | inl h2 =>
        rw [h2]
        exact (ih _).1 pb.slug
          (entryStable_after_process contest.start_time contest.end_time subs
            acc.1 pb)
      | inr h2 => exact (ih _).2 problem h2

theorem syncPassSingle_of_stable (contest : Contest)
    (participation : Participation) (subs : List Submission)
    (h : ∀ problem ∈ contest.problems,
      entryStable contest.start_time contest.end_time subs problem.slug
        participation.problem_progress) :
    syncPassSingle contest participation subs = (participation, false) := by
  unfold syncPassSingle
  suffices haux : ∀ (probs : List ContestProblem),
      (∀ problem ∈ probs,
        entryStable contest.start_time contest.end_time subs problem.slug
          participation.problem_progress) →
      probs.foldl (fun acc problem =>
        let r := processProblemSingle contest.start_time contest.end_time subs
          acc.1 problem
        (r.1, acc.2 || r.2)) (participation, false) = (participation, false) by
    exact haux contest.problems h
  intro probs
  induction probs with
  | nil => intro _; rfl
  | cons pb rest ih =>
    intro hh
    have hmain : processProblemSingle contest.start_time contest.end_time subs
        participation pb = (participation, false) :=
      processProblemSingle_of_stable (hh pb (List.mem_cons_self pb rest))
    rw [List.foldl_cons]
    simp only [hmain, Bool.or_false]
    exact ih (fun problem hmem => hh problem (List.mem_cons_of_mem pb hmem))

/-- C5: the sync pass is idempotent.  A second pass over the same feed
immediately after a first one changes nothing — the participation (its
score, total_penalty and every ProblemProgress field) is returned
untouched with the scoreChanged flag down — and the second request
(once the 30 second cooldown has elapsed) answers exactly
"No new submissions found", only restamping last_sync. -/
theorem sync_pass_idempotent (contest : Contest) (participation : Participation)
    (subs : List Submission) :
    syncPassSingle contest (syncPassSingle contest participation subs).1 subs =
      ((syncPassSingle contest participation subs).1, false) ∧
    (∀ nowMs nowMs2 : Nat, 30000 ≤ nowMs2 - nowMs →
      syncSingleRequest contest
        { (syncPassSingle contest participation subs).1 with
            last_sync := some nowMs }
        (Except.ok subs) nowMs2 =
      ({ (syncPassSingle contest participation subs).1 with
          last_sync := some nowMs2 },
        SingleSyncResult.synced false "No new submissions found")) := by
  have hstable := syncPassSingle_stable contest participation subs
  have hsecond : syncPassSingle contest
      (syncPassSingle contest participation subs).1 subs =
      ((syncPassSingle contest participation subs).1, false) :=
    syncPassSingle_of_stable contest _ subs hstable
  refine ⟨hsecond, ?_⟩
  intro nowMs nowMs2 hge
  have hpass2 : syncPassSingle contest
      { (syncPassSingle contest participation subs).1 with
        last_sync := some nowMs } subs =
      ({ (syncPassSingle contest participation subs).1 with
        last_sync := some nowMs }, false) :=
    syncPassSingle_of_stable contest _ subs (fun pb hm => hstable pb hm)
  unfold syncSingleRequest
  dsimp only
  rw [if_neg (by omega)]
  unfold syncSingleProceed
  dsimp only
  rw [hpass2]
  rfl

/-- Witness for C5: a pass that accepts the single problem, rerun on its
own output with the identical feed, returns it unchanged with no score
change, and the follow-up request 30 seconds later reports no new
submissions. -/
theorem sync_pass_idempotent_witness :
    ((30000 : Nat) ≤ 1030000 - 1000000) ∧
    syncPassSingle ⟨[⟨"a", some "Easy"⟩], 100, 200, false, none⟩
      (syncPassSingle ⟨[⟨"a", some "Easy"⟩], 100, 200, false, none⟩
        ⟨0, 0, [⟨"a", PStatus.PENDING, 0, none, 0⟩], none, none⟩
        [⟨"a", 150, "Accepted"⟩]).1 [⟨"a", 150, "Accepted"⟩] =
      ((syncPassSingle ⟨[⟨"a", some "Easy"⟩], 100, 200, false, none⟩
        ⟨0, 0, [⟨"a", PStatus.PENDING, 0, none, 0⟩], none, none⟩
        [⟨"a", 150, "Accepted"⟩]).1, false) ∧
    syncSingleRequest ⟨[⟨"a", some "Easy"⟩], 100, 200, false, none⟩
      { (syncPassSingle ⟨[⟨"a", some "Easy"⟩], 100, 200, false, none⟩
          ⟨0, 0, [⟨"a", PStatus.PENDING, 0, none, 0⟩], none, none⟩
          [⟨"a", 150, "Accepted"⟩]).1 with last_sync := some 1000000 }
      (Except.ok [⟨"a", 150, "Accepted"⟩]) 1030000 =
      ({ (syncPassSingle ⟨[⟨"a", some "Easy"⟩], 100, 200, false, none⟩
          ⟨0, 0, [⟨"a", PStatus.PENDING, 0, none, 0⟩], none, none⟩
          [⟨"a", 150, "Accepted"⟩]).1 with last_sync := some 1030000 },
        SingleSyncResult.synced false "No new submissions found") := by
  refine ⟨by decide, (sync_pass_idempotent ⟨[⟨"a", some "Easy"⟩], 100, 200, false,
    none⟩ ⟨0, 0, [⟨"a", PStatus.PENDING, 0, none, 0⟩], none, none⟩
    [⟨"a", 150, "Accepted"⟩]).1, ?_⟩
  exact (sync_pass_idempotent ⟨[⟨"a", some "Easy"⟩], 100, 200, false, none⟩
    ⟨0, 0, [⟨"a", PStatus.PENDING, 0, none, 0⟩], none, none⟩
    [⟨"a", 150, "Accepted"⟩]).2 1000000 1030000 (by decide)

end LeetWars

